import Mathlib

set_option maxHeartbeats 1000000

/- Verification development for the Pong Evolution genetic-algorithm
   tournament engine (pong-evolution/game.js).

   Modelling conventions:
   * JavaScript numbers are modelled as exact rationals (ℚ); the trigonometric
     parts of the match engine are modelled over ℝ.
   * Every call to Math.random() is modelled as an explicit parameter,
     constrained to [0, 1) where a theorem needs it.
   * Players are identified by natural-number ids; mutable Player objects are
     modelled by records / by an id-indexed statistics map where the code
     mutates them through references. -/

-- ===================== Genome model (GENE_DEFINITIONS) =====================

inductive Gene where
  | trackingWeight
  | predictionWeight
  | predictionFrames
  | centerBias
  | aggressiveness
  | sweetSpotOffset
  | reactionDelay
  | movementSmoothing
  | defensiveThreshold
  | offensiveAngling
  | errorRate
  | jitterAmount
deriving DecidableEq, Fintype

/-- Per-gene lower bounds from GENE_DEFINITIONS. -/
def geneMin : Gene → ℚ
  | .trackingWeight => 0
  | .predictionWeight => 0
  | .predictionFrames => 5
  | .centerBias => 0
  | .aggressiveness => 0
  | .sweetSpotOffset => -(1/2)
  | .reactionDelay => 0
  | .movementSmoothing => 0
  | .defensiveThreshold => 3/10
  | .offensiveAngling => 0
  | .errorRate => 0
  | .jitterAmount => 0

/-- Per-gene upper bounds from GENE_DEFINITIONS. -/
def geneMax : Gene → ℚ
  | .trackingWeight => 1
  | .predictionWeight => 1
  | .predictionFrames => 60
  | .centerBias => 1
  | .aggressiveness => 1
  | .sweetSpotOffset => 1/2
  | .reactionDelay => 10
  | .movementSmoothing => 9/10
  | .defensiveThreshold => 7/10
  | .offensiveAngling => 1
  | .errorRate => 3/10
  | .jitterAmount => 5

def Genome : Type := Gene → ℚ

/-- `createRandomGenome()`: `genome[gene] = def.min + Math.random() * (def.max - def.min)`.
The twelve `Math.random()` draws are the parameter `rand`. -/
def createRandomGenome (rand : Gene → ℚ) : Genome :=
  fun g => geneMin g + rand g * (geneMax g - geneMin g)

/-- `crossover(parent1, parent2)`. Per gene: a 50/50 pick of a parent value
(`rPick < 0.5`), possibly overridden (`rChk < 0.3`) by the blend
`parent1*blend + parent2*(1-blend)`. -/
def crossover (parent1 parent2 : Genome) (rPick rChk rBlend : Gene → ℚ) : Genome :=
  fun g =>
    if rChk g < 3/10 then parent1 g * rBlend g + parent2 g * (1 - rBlend g)
    else if rPick g < 1/2 then parent1 g else parent2 g

/-- `mutate(genome, mutationRate)`: per gene, with probability `mutationRate`
add `(Math.random() - 0.5) * range * 0.4` and clamp to `[min, max]`. -/
def mutate (genome : Genome) (mutationRate : ℚ) (rChk rNoise : Gene → ℚ) : Genome :=
  fun g =>
    if rChk g < mutationRate then
      let range := geneMax g - geneMin g
      let mutation := (rNoise g - 1/2) * range * (2/5)
      max (geneMin g) (min (geneMax g) (genome g + mutation))
    else genome g

/-- A genome is schema-conformant when every gene value is inside its
`[min, max]` interval. -/
def genomeInBounds (x : Genome) : Prop :=
  ∀ g : Gene, geneMin g ≤ x g ∧ x g ≤ geneMax g

instance : DecidablePred genomeInBounds := fun x =>
  inferInstanceAs (Decidable (∀ g : Gene, geneMin g ≤ x g ∧ x g ≤ geneMax g))

-- ===================== Player =====================

/-- A `Player` object. `genomeRef` models JavaScript object identity of the
genome record: a fresh reference means a freshly allocated genome object
(`{ ...genome }` copies into a new object), so two players share genome
storage exactly when their `genomeRef`s coincide. Names are modelled as
natural-number ids (`generateName()` draws fresh ids from a counter). -/
structure Player where
  genomeRef : Nat
  genome : Genome
  name : Nat
  generation : Nat
  wins : Nat
  losses : Nat
  pointsFor : Nat
  pointsAgainst : Nat
  matchesPlayed : Nat
  fitness : ℚ
  reactionCounter : Nat
  lastTargetY : ℚ
  smoothedY : ℚ

-- CONFIG constants.
def CANVAS_WIDTH : ℚ := 800

def CANVAS_HEIGHT : ℚ := 500

def PADDLE_WIDTH : ℚ := 15

def PADDLE_HEIGHT : ℚ := 80

def PADDLE_MARGIN : ℚ := 30

def BALL_SIZE : ℚ := 12

def BALL_SPEED : ℚ := 6

def PADDLE_SPEED : ℚ := 8

def MAX_BALL_SPEED : ℚ := 15

/-- The `Player` constructor: fresh stats, `reactionCounter = 0`,
`lastTargetY = smoothedY = CANVAS_HEIGHT / 2`. -/
def mkPlayer (genomeRef : Nat) (genome : Genome) (name generation : Nat) : Player :=
  { genomeRef := genomeRef, genome := genome, name := name, generation := generation,
    wins := 0, losses := 0, pointsFor := 0, pointsAgainst := 0, matchesPlayed := 0,
    fitness := 0, reactionCounter := 0,
    lastTargetY := CANVAS_HEIGHT / 2, smoothedY := CANVAS_HEIGHT / 2 }

/-- JavaScript `Math.round`: round half toward positive infinity. -/
def jsRound (q : ℚ) : ℤ := ⌊q + 1/2⌋

/-- `Player.calculateFitness()`:
`fitness = Math.round(winRate*1000 + avgPointDiff*10)`, and `0` when
`matchesPlayed === 0`. -/
def calculateFitness (p : Player) : Player :=
  if p.matchesPlayed = 0 then { p with fitness := 0 }
  else
    let winRate : ℚ := (p.wins : ℚ) / (p.matchesPlayed : ℚ)
    let pointDiff : ℚ := (p.pointsFor : ℚ) - (p.pointsAgainst : ℚ)
    let avgPointDiff : ℚ := pointDiff / (p.matchesPlayed : ℚ)
    { p with fitness := (jsRound (winRate * 1000 + avgPointDiff * 10) : ℚ) }

/-- `Player.resetStats()`. -/
def resetStats (p : Player) : Player :=
  { p with
    wins := 0
    losses := 0
    pointsFor := 0
    pointsAgainst := 0
    matchesPlayed := 0
    fitness := 0 }

/-- `Player.clone()`: `new Player({ ...this.genome }, this.name + '-clone',
this.generation)`. The genome spread copies the values into a fresh object:
the clone gets a fresh `genomeRef` (passed in by the caller of the model).
The '-clone' name is modelled by a caller-supplied fresh name id; `evolve()`
immediately overwrites it anyway. -/
def clonePlayer (p : Player) (freshRef freshName : Nat) : Player :=
  mkPlayer freshRef p.genome freshName p.generation

/-- Example player used by the C6 counterexample: 1 win in 3 matches, equal
points for and against. -/
def fitnessCounterexamplePlayer : Player :=
  { mkPlayer 0 geneMin 0 0 with wins := 1, matchesPlayed := 3 }

-- ===================== Player AI: calculateTarget =====================

/-- One iteration body of the bounce-folding loop in `calculateTarget`:
`if (predictY < 0) predictY = -predictY; if (predictY > canvasHeight)
predictY = 2*canvasHeight - predictY;`. -/
def bounceStep (y : ℚ) : ℚ :=
  let y1 := if y < 0 then -y else y
  if y1 > CANVAS_HEIGHT then 2 * CANVAS_HEIGHT - y1 else y1

/-- The bounce-folding `while` loop of `calculateTarget`
(`while (predictY < 0 || predictY > canvasHeight) ...`). -/
def foldBounce (y : ℚ) : ℚ :=
  if h : y < 0 ∨ y > CANVAS_HEIGHT then foldBounce (bounceStep y) else y
termination_by ((Int.toNat ⌈|y|⌉, if y < 0 then 1 else 0) : Nat × Nat)
decreasing_by
  have hCH : CANVAS_HEIGHT = (500 : ℚ) := rfl
  rcases h with h | h
  · -- y < 0
    by_cases hgt : -y > (500 : ℚ)
    · -- bounceStep y = 1000 + y
      have hbs : bounceStep y = 1000 + y := by
        simp only [bounceStep, hCH, if_pos h, if_pos hgt]
        ring
      by_cases hlo : y < -1000
      · -- result still negative
        have hbneg : bounceStep y < 0 := by rw [hbs]; linarith
        have habs : |bounceStep y| = |y| - 1000 := by
          rw [hbs] at hbneg ⊢
          rw [abs_of_neg hbneg, abs_of_neg h]; ring
        have hceil : ⌈|bounceStep y|⌉ = ⌈|y|⌉ - 1000 := by
          rw [habs, show ((1000 : ℚ)) = ((1000 : ℤ) : ℚ) by norm_num, Int.ceil_sub_int]
        have hy1001 : (1001 : ℤ) ≤ ⌈|y|⌉ := by
          have : (1000 : ℚ) < |y| := by rw [abs_of_neg h]; linarith
          have := Int.lt_ceil.mpr (by exact_mod_cast this : ((1000 : ℤ) : ℚ) < |y|)
          omega
        apply Prod.Lex.left
        rw [hceil]
        omega
      · -- result lands in [0, 500)
        have hbnn : 0 ≤ bounceStep y := by rw [hbs]; push_neg at hlo; linarith
        have hblt : bounceStep y < 500 := by rw [hbs]; linarith
        have h1 : ⌈|bounceStep y|⌉ ≤ 500 := by
          rw [abs_of_nonneg hbnn]
          exact Int.ceil_le.mpr (by exact_mod_cast le_of_lt hblt)
        have h2 : (501 : ℤ) ≤ ⌈|y|⌉ := by
          have : (500 : ℚ) < |y| := by rw [abs_of_neg h]; linarith
          have := Int.lt_ceil.mpr (by exact_mod_cast this : ((500 : ℤ) : ℚ) < |y|)
          omega
        apply Prod.Lex.left
        omega
    · -- bounceStep y = -y, same ceil, sign bit drops
      have hbs : bounceStep y = -y := by
        simp only [bounceStep, hCH, if_pos h, if_neg hgt]
      have habs : |bounceStep y| = |y| := by rw [hbs, abs_neg]
      have hbnn : ¬ bounceStep y < 0 := by rw [hbs]; linarith
      rw [habs, if_neg hbnn, if_pos h]
      exact Prod.Lex.right _ (by omega)
  · -- y > 500
    have hy0 : ¬ y < 0 := by rw [hCH] at h; linarith
    rw [hCH] at h
    have hbs : bounceStep y = 1000 - y := by
      simp only [bounceStep, hCH, if_neg hy0, if_pos h]
      ring
    by_cases hhi : y > 1000
    · have hbneg : bounceStep y < 0 := by rw [hbs]; linarith
      have habs : |bounceStep y| = |y| - 1000 := by
        rw [hbs] at hbneg ⊢
        rw [abs_of_neg hbneg, abs_of_nonneg (by linarith : (0:ℚ) ≤ y)]; ring
      have hceil : ⌈|bounceStep y|⌉ = ⌈|y|⌉ - 1000 := by
        rw [habs, show ((1000 : ℚ)) = ((1000 : ℤ) : ℚ) by norm_num, Int.ceil_sub_int]
      have hy1001 : (1001 : ℤ) ≤ ⌈|y|⌉ := by
        have : (1000 : ℚ) < |y| := by rw [abs_of_nonneg (by linarith : (0:ℚ) ≤ y)]; linarith
        have := Int.lt_ceil.mpr (by exact_mod_cast this : ((1000 : ℤ) : ℚ) < |y|)
        omega
      apply Prod.Lex.left
      rw [hceil]
      omega
    · have hbnn : 0 ≤ bounceStep y := by rw [hbs]; push_neg at hhi; linarith
      have hblt : bounceStep y < 500 := by rw [hbs]; linarith
      have h1 : ⌈|bounceStep y|⌉ ≤ 500 := by
        rw [abs_of_nonneg hbnn]
        exact Int.ceil_le.mpr (by exact_mod_cast le_of_lt hblt)
      have h2 : (501 : ℤ) ≤ ⌈|y|⌉ := by
        have : (500 : ℚ) < |y| := by rw [abs_of_nonneg (by linarith : (0:ℚ) ≤ y)]; linarith
        have := Int.lt_ceil.mpr (by exact_mod_cast this : ((500 : ℤ) : ℚ) < |y|)
        omega
      apply Prod.Lex.left
      omega

/-- Ball state (rational model). -/
structure Ball where
  x : ℚ
  y : ℚ
  vx : ℚ
  vy : ℚ

/-- The raw target computed by `Player.calculateTarget` before the final
clamp and smoothing (lines "let targetY = canvasHeight / 2" through the
jitter noise). `rErr` and `rJit` are the two `Math.random()` draws of the
noise step. The `paddle` argument of the source is unused by its body. -/
def calcRawTarget (p : Player) (ball : Ball) (isLeftSide : Bool) (rErr rJit : ℚ) : ℚ :=
  let genome := p.genome
  let canvasHeight := CANVAS_HEIGHT
  let paddleHeight := PADDLE_HEIGHT
  let ballComingToUs := if isLeftSide then ball.vx < 0 else ball.vx > 0
  let paddleX := if isLeftSide then PADDLE_MARGIN else CANVAS_WIDTH - PADDLE_MARGIN
  let distanceToBall := |paddleX - ball.x|
  let relativeDistance := distanceToBall / CANVAS_WIDTH
  let targetY :=
    if ballComingToUs then
      let trackY := ball.y
      let predictY :=
        if ball.vx ≠ 0 then
          let framesToReach := |(paddleX - ball.x) / ball.vx|
          let predictFrames := min framesToReach (genome Gene.predictionFrames)
          foldBounce (ball.y + ball.vy * predictFrames)
        else ball.y
      let combinedY := trackY * genome Gene.trackingWeight + predictY * genome Gene.predictionWeight
      let totalWeight := genome Gene.trackingWeight + genome Gene.predictionWeight
      let t0 := if totalWeight > 0 then combinedY / totalWeight else ball.y
      let t1 := t0 + genome Gene.sweetSpotOffset * paddleHeight
      if genome Gene.offensiveAngling > 1/2 ∧ relativeDistance < 3/10 then
        let angleDirection : ℚ := if ball.y > canvasHeight / 2 then -1 else 1
        t1 + angleDirection * paddleHeight * (3/10) * (genome Gene.offensiveAngling - 1/2)
      else t1
    else
      let centerY := canvasHeight / 2
      let defensiveY := ball.y
      if relativeDistance > genome Gene.defensiveThreshold then
        centerY * genome Gene.centerBias + defensiveY * (1 - genome Gene.centerBias)
      else
        defensiveY * genome Gene.aggressiveness + centerY * (1 - genome Gene.aggressiveness)
  let targetY :=
    if genome Gene.errorRate > 0 then targetY + (rErr - 1/2) * paddleHeight * genome Gene.errorRate
    else targetY
  targetY + (rJit - 1/2) * genome Gene.jitterAmount

/-- `Player.calculateTarget(ball, paddle, isLeftSide)`. Returns the updated
player (its mutated runtime fields) together with the returned target. -/
def calculateTarget (p : Player) (ball : Ball) (isLeftSide : Bool) (rErr rJit : ℚ) : Player × ℚ :=
  let p1 : Player := { p with reactionCounter := p.reactionCounter + 1 }
  if (p1.reactionCounter : ℚ) < p1.genome Gene.reactionDelay then
    (p1, p1.lastTargetY)
  else
    let p2 : Player := { p1 with reactionCounter := 0 }
    let targetY := max (PADDLE_HEIGHT / 2)
      (min (CANVAS_HEIGHT - PADDLE_HEIGHT / 2) (calcRawTarget p2 ball isLeftSide rErr rJit))
    let smoothed := p2.smoothedY * p2.genome Gene.movementSmoothing
      + targetY * (1 - p2.genome Gene.movementSmoothing)
    ({ p2 with smoothedY := smoothed, lastTargetY := smoothed }, smoothed)

-- ===================== EvolutionManager =====================

/-- Stable insertion of a player into a list sorted by descending fitness
(earlier-listed players stay ahead of later equal-fitness ones, matching
JavaScript's stable `sort((a, b) => b.fitness - a.fitness)`). -/
def insertByFitness (p : Player) : List Player → List Player
  | [] => [p]
  | q :: rest => if q.fitness ≤ p.fitness then p :: q :: rest else q :: insertByFitness p rest

/-- `population.sort((a, b) => b.fitness - a.fitness)`: the stable descending
sort by fitness. -/
def sortByFitnessDesc : List Player → List Player
  | [] => []
  | p :: rest => insertByFitness p (sortByFitnessDesc rest)

/-- Randomness consumed while breeding one child during `evolve`:
two triples of tournament-selection draws and the per-gene crossover and
mutation draws. -/
structure EvoRand where
  sel1 : Fin 3 → ℚ
  sel2 : Fin 3 → ℚ
  crPick : Gene → ℚ
  crChk : Gene → ℚ
  crBlend : Gene → ℚ
  muChk : Gene → ℚ
  muNoise : Gene → ℚ

/-- `Math.floor(Math.random() * candidates.length)`. -/
def pickIndex (r : ℚ) (len : Nat) : Nat := (⌊r * (len : ℚ)⌋).toNat

/-- A default player, standing in for JavaScript's `undefined` on
out-of-range array access (where the source would crash on field access). -/
def defaultPlayer : Player := mkPlayer 0 geneMin 0 0

/-- `EvolutionManager.tournamentSelect(candidates)`: draw 3 candidates, keep
the fittest (`!best || candidate.fitness > best.fitness`). -/
def tournamentSelect (candidates : List Player) (rs : Fin 3 → ℚ) : Player :=
  let c0 := candidates.getD (pickIndex (rs 0) candidates.length) defaultPlayer
  let c1 := candidates.getD (pickIndex (rs 1) candidates.length) defaultPlayer
  let c2 := candidates.getD (pickIndex (rs 2) candidates.length) defaultPlayer
  let best := c0
  let best := if best.fitness < c1.fitness then c1 else best
  if best.fitness < c2.fitness then c2 else best

/-- `Player.breed(partner, mutationRate)`: child genome =
`mutate(crossover(this.genome, partner.genome), mutationRate)`, generation =
`max(this.generation, partner.generation) + 1`, fresh name and genome
object. -/
def breed (p partner : Player) (mutationRate : ℚ) (er : EvoRand)
    (freshRef freshName : Nat) : Player :=
  mkPlayer freshRef
    (mutate (crossover p.genome partner.genome er.crPick er.crChk er.crBlend)
      mutationRate er.muChk er.muNoise)
    freshName (max p.generation partner.generation + 1)

/-- Selection in `evolve()`: survivors are the top
`Math.ceil(population.length / 2)` of the population sorted by descending
fitness (after `calculateFitness`). -/
def survivorsOf (pop : List Player) : List Player :=
  (sortByFitnessDesc (pop.map calculateFitness)).take ((pop.length + 1) / 2)

/-- The `while (newPopulation.length < this.population.length)` breeding loop
of `evolve()`: append one bred child per iteration until the target size is
reached. `i` counts consumed randomness; fresh name/genome ids are derived
from it. -/
def breedLoop (survivors : List Player) (mutationRate : ℚ) (rand : Nat → EvoRand)
    (targetLen nameCtr allocCtr : Nat) (i : Nat) (acc : List Player) : List Player :=
  if acc.length < targetLen then
    let parent1 := tournamentSelect survivors (rand i).sel1
    let parent2 := tournamentSelect survivors (rand i).sel2
    let child := breed parent1 parent2 mutationRate (rand i) (allocCtr + i) (nameCtr + i)
    breedLoop survivors mutationRate rand targetLen nameCtr allocCtr (i + 1) (acc ++ [child])
  else acc
termination_by targetLen - acc.length
decreasing_by simp_wf; omega

/-- `EvolutionManager.evolve(mutationRate)`. The population is the manager's
`this.population`, `generation` its `this.generation`. The all-time
leaderboard bookkeeping of the source (display-only `allTimeStats`) is
omitted. `nameCtr`/`allocCtr` supply the fresh name and genome-object ids
consumed by cloning and breeding. -/
def evolve (pop : List Player) (generation : Nat) (mutationRate : ℚ) (rand : Nat → EvoRand)
    (nameCtr allocCtr : Nat) : List Player :=
  let survivors := survivorsOf pop
  let best := survivors.getD 0 defaultPlayer
  let elite0 := clonePlayer best allocCtr nameCtr
  let elite : Player := { elite0 with name := best.name, generation := generation + 1 }
  let newPop := breedLoop survivors mutationRate rand pop.length (nameCtr + 1) (allocCtr + 1) 0
    (resetStats elite :: [])
  newPop.map resetStats

/-- `EvolutionManager.initPopulation(size)`: `size` fresh random players.
No validation of any kind is performed. -/
def initPopulation (size : Nat) (rand : Nat → Gene → ℚ) (nameCtr allocCtr : Nat) : List Player :=
  (List.range size).map (fun i => mkPlayer (allocCtr + i) (createRandomGenome (rand i)) (nameCtr + i) 0)

-- ===================== PongGame physics (real-valued) =====================

/-- Ball state for the trigonometric parts of the match engine. -/
structure BallR where
  x : ℝ
  y : ℝ
  vx : ℝ
  vy : ℝ

/-- Paddle state (position only; sizes are CONFIG constants). -/
structure PaddleR where
  x : ℝ
  y : ℝ

/-- `PongGame.serve()`: ball to canvas center (800/2, 500/2), angle
`(Math.random() - 0.5) * Math.PI / 3`, velocity magnitude BALL_SPEED = 6
along `serveDirection`; afterwards `serveDirection *= -1` (the returned
second component) and `serving = false`. -/
noncomputable def serve (serveDirection : ℝ) (r : ℝ) : BallR × ℝ :=
  let angle := (r - 1/2) * (Real.pi / 3)
  ({ x := 800 / 2, y := 500 / 2,
     vx := 6 * serveDirection * Real.cos angle,
     vy := 6 * Real.sin angle }, -serveDirection)

/-- The collision test of `PongGame.checkPaddleCollision`: horizontal overlap
in the direction of travel, plus vertical overlap of bounding extents
(ball half-size 12/2, paddle half-width 15/2, half-height 80/2). -/
def paddleCollides (ball : BallR) (paddle : PaddleR) (isLeft : Bool) : Prop :=
  (if isLeft then
      ball.x - 12/2 ≤ paddle.x + 15/2 ∧ ball.x + 12/2 ≥ paddle.x - 15/2 ∧ ball.vx < 0
    else
      ball.x + 12/2 ≥ paddle.x - 15/2 ∧ ball.x - 12/2 ≤ paddle.x + 15/2 ∧ ball.vx > 0)
  ∧ ball.y + 12/2 ≥ paddle.y - 80/2 ∧ ball.y - 12/2 ≤ paddle.y + 80/2

/-- `const hitPos = (this.ball.y - paddle.y) / (CONFIG.PADDLE_HEIGHT / 2)` —
note: the source does NOT clamp this value. -/
noncomputable def hitPosOf (ball : BallR) (paddle : PaddleR) : ℝ := (ball.y - paddle.y) / (80 / 2)

open scoped Classical in
/-- `PongGame.checkPaddleCollision(paddle, isLeft)`: on collision, bounce
angle `hitPos * π/3`, speed `min(current*1.05, MAX_BALL_SPEED)`, velocity
away from the paddle, ball repositioned just outside the paddle. -/
noncomputable def checkPaddleCollision (ball : BallR) (paddle : PaddleR) (isLeft : Bool) : BallR :=
  if paddleCollides ball paddle isLeft then
    let hitPos := hitPosOf ball paddle
    let angle := hitPos * (Real.pi / 3)
    let speed := min (Real.sqrt (ball.vx ^ 2 + ball.vy ^ 2) * (21/20)) 15
    { x := if isLeft then (paddle.x + 15/2) + 12/2 else (paddle.x - 15/2) - 12/2,
      y := ball.y,
      vx := speed * Real.cos angle * (if isLeft then 1 else -1),
      vy := speed * Real.sin angle }
  else ball

open scoped Classical in
/-- Modelled from the claim's words (C8): the same collision response but
with the hit offset clamped to [-1, 1], for comparison with the source's
`checkPaddleCollision`, which does not clamp. -/
noncomputable def checkPaddleCollisionClamped (ball : BallR) (paddle : PaddleR) (isLeft : Bool) : BallR :=
  if paddleCollides ball paddle isLeft then
    let hitPos := max (-1) (min 1 (hitPosOf ball paddle))
    let angle := hitPos * (Real.pi / 3)
    let speed := min (Real.sqrt (ball.vx ^ 2 + ball.vy ^ 2) * (21/20)) 15
    { x := if isLeft then (paddle.x + 15/2) + 12/2 else (paddle.x - 15/2) - 12/2,
      y := ball.y,
      vx := speed * Real.cos angle * (if isLeft then 1 else -1),
      vy := speed * Real.sin angle }
  else ball

-- ===================== Tournament =====================

/-- A bracket slot (`{player1, player2, winner, scores, completed}`).
Players are ids; `none` models JavaScript `null`/absent. -/
structure TMatch where
  player1 : Option Nat
  player2 : Option Nat
  winner : Option Nat
  scores : List (Nat × Nat)
  completed : Bool
deriving DecidableEq, Inhabited, Repr

/-- The per-player statistics block mutated by `recordResult`
(the stats fields of the Player objects, keyed by player id). -/
structure PStats where
  wins : Nat
  losses : Nat
  pointsFor : Nat
  pointsAgainst : Nat
  matchesPlayed : Nat
deriving DecidableEq, Inhabited, Repr

/-- Tournament state: the bracket, the scan position (`currentRound`,
`currentMatch`), `matchesPerPairing`, the id-indexed player statistics, and
the `results` log. (`pointsToWin` is only read by the outer game loop and is
omitted.) -/
structure TState where
  bracket : List (List TMatch)
  currentRound : Nat
  currentMatch : Nat
  matchesPerPairing : Nat
  stats : Nat → PStats
  results : List (Nat × Nat × List (Nat × Nat))

/-- First-round construction of `generateBracket`: pair consecutive entries
of the shuffled list; an odd leftover becomes a completed bye. -/
def mkFirstRound : List Nat → List TMatch
  | [] => []
  | [p] => [{ player1 := some p, player2 := none, winner := some p, scores := [], completed := true }]
  | p :: q :: rest =>
    { player1 := some p, player2 := some q, winner := none, scores := [], completed := false }
      :: mkFirstRound rest

def emptyTMatch : TMatch :=
  { player1 := none, player2 := none, winner := none, scores := [], completed := false }

/-- The empty later rounds of `generateBracket`: `count` rounds whose sizes
halve (rounding up) starting from `matchesInRound`. -/
def mkEmptyRounds : Nat → Nat → List (List TMatch)
  | _, 0 => []
  | matchesInRound, Nat.succ k =>
    List.replicate matchesInRound emptyTMatch :: mkEmptyRounds ((matchesInRound + 1) / 2) k

/-- `Tournament.generateBracket()`. The shuffle
(`sort(() => Math.random() - 0.5)`) is modelled by taking the already
shuffled player list as input; `Math.ceil(Math.log2(n))` is `Nat.clog 2 n`.
`st0` is the players' current statistics. -/
def generateBracket (shuffled : List Nat) (mpp : Nat) (st0 : Nat → PStats) : TState :=
  let firstRound := mkFirstRound shuffled
  let numRounds := Nat.clog 2 shuffled.length
  { bracket := firstRound :: mkEmptyRounds ((firstRound.length + 1) / 2) (numRounds - 1)
    currentRound := 0
    currentMatch := 0
    matchesPerPairing := mpp
    stats := st0
    results := [] }

def getSlot (br : List (List TMatch)) (r m : Nat) : TMatch := (br.getD r []).getD m default

def setSlot (br : List (List TMatch)) (r m : Nat) (mt : TMatch) : List (List TMatch) :=
  br.set r ((br.getD r []).set m mt)

/-- One slot update of `Tournament.updateBracketPlayers()`: fill
`player1`/`player2` from the two completed predecessor slots, and complete as
a bye when only `player1` is present and the second predecessor slot does not
exist. -/
def updateSlot (prevRound : List TMatch) (m : Nat) (mt : TMatch) : TMatch :=
  let s1 := prevRound[2 * m]?
  let s2 := prevRound[2 * m + 1]?
  let mt1 := match s1 with
    | some sm => if sm.completed && mt.player1.isNone then { mt with player1 := sm.winner } else mt
    | none => mt
  let mt2 := match s2 with
    | some sm => if sm.completed && mt1.player2.isNone then { mt1 with player2 := sm.winner } else mt1
    | none => mt1
  if mt2.player1.isSome && mt2.player2.isNone && s2.isNone then
    { mt2 with winner := mt2.player1, completed := true }
  else mt2

def updateRoundGo (prev : List TMatch) : Nat → List TMatch → List TMatch
  | _, [] => []
  | m, mt :: rest => updateSlot prev m mt :: updateRoundGo prev (m + 1) rest

/-- Update all slots of one round from its (already updated) predecessor. -/
def updateRound (prev cur : List TMatch) : List TMatch := updateRoundGo prev 0 cur

/-- Rounds `1..` of `updateBracketPlayers`, processed in order, each from the
already-updated previous round (the source mutates the bracket in place, so
round `r` reads the round `r-1` as updated in the same pass). -/
def updateRounds (prev : List TMatch) : List (List TMatch) → List (List TMatch)
  | [] => []
  | r :: rs =>
    let r' := updateRound prev r
    r' :: updateRounds r' rs

/-- `Tournament.updateBracketPlayers()`. -/
def updateBracketPlayers (br : List (List TMatch)) : List (List TMatch) :=
  match br with
  | [] => []
  | r0 :: rest => r0 :: updateRounds r0 rest

/-- The scan loop body of `Tournament.getNextMatch()`. The `fuel` argument
bounds the number of loop iterations; `bracketScanBound` below is a provably
sufficient amount (see `scanMeasure_lt_bound` and `getNextMatchGo_spec`), so
the fuel-out branch is never reached from the states the driver visits. -/
def getNextMatchGo : Nat → TState → TState × Option (Nat × Nat)
  | 0, s => (s, none)
  | fuel + 1, s =>
    if s.currentRound < s.bracket.length then
      if s.currentMatch < (s.bracket.getD s.currentRound []).length then
        let mt := getSlot s.bracket s.currentRound s.currentMatch
        if mt.completed then
          getNextMatchGo fuel { s with currentMatch := s.currentMatch + 1 }
        else if 0 < s.currentRound then
          let s' := { s with bracket := updateBracketPlayers s.bracket }
          let mt' := getSlot s'.bracket s.currentRound s.currentMatch
          if mt'.player1 = none ∨ mt'.player2 = none then
            getNextMatchGo fuel { s' with currentMatch := s.currentMatch + 1 }
          else (s', some (s.currentRound, s.currentMatch))
        else
          if mt.player1.isSome ∧ mt.player2.isSome then
            (s, some (s.currentRound, s.currentMatch))
          else if mt.player1.isSome ∧ mt.player2 = none then
            getNextMatchGo fuel
              { s with
                bracket := setSlot s.bracket s.currentRound s.currentMatch
                  { mt with winner := mt.player1, completed := true }
                currentMatch := s.currentMatch + 1 }
          else getNextMatchGo fuel { s with currentMatch := s.currentMatch + 1 }
      else getNextMatchGo fuel { s with currentRound := s.currentRound + 1, currentMatch := 0 }
    else (s, none)

/-- Remaining scan steps from the current position (used to show the fuel
bound suffices). -/
def scanMeasure (s : TState) : Nat :=
  ((s.bracket.drop (s.currentRound + 1)).map List.length).sum
    + (s.bracket.length - s.currentRound)
    + ((s.bracket.getD s.currentRound []).length - s.currentMatch)

/-- Fuel sufficient for any full scan of the bracket. -/
def bracketScanBound (s : TState) : Nat :=
  (s.bracket.map List.length).sum + s.bracket.length + 1

/-- `Tournament.getNextMatch()`: returns the updated state and the indices
`(round, match)` of the next playable slot, or `none` when the tournament is
complete. -/
def getNextMatch (s : TState) : TState × Option (Nat × Nat) :=
  getNextMatchGo (bracketScanBound s) s

/-- `Math.ceil(this.matchesPerPairing / 2)`. -/
def winsNeeded (mpp : Nat) : Nat := (mpp + 1) / 2

/-- `p1Wins`: recorded games with `score.left > score.right`. -/
def p1WinsOf (scores : List (Nat × Nat)) : Nat :=
  (scores.filter (fun sc => decide (sc.2 < sc.1))).length

/-- `p2Wins`: the `else` branch — every recorded game not won by player 1
(ties included). -/
def p2WinsOf (scores : List (Nat × Nat)) : Nat :=
  (scores.filter (fun sc => ! decide (sc.2 < sc.1))).length

def bumpWins (st : Nat → PStats) (q0 : Nat) : Nat → PStats :=
  fun q => if q = q0 then { st q with wins := (st q).wins + 1 } else st q

def bumpLosses (st : Nat → PStats) (q0 : Nat) : Nat → PStats :=
  fun q => if q = q0 then { st q with losses := (st q).losses + 1 } else st q

def bumpMatchesPlayed (st : Nat → PStats) (q0 : Nat) : Nat → PStats :=
  fun q => if q = q0 then { st q with matchesPlayed := (st q).matchesPlayed + 1 } else st q

def addPointsTo (st : Nat → PStats) (q0 : Nat) (pf pa : Nat) : Nat → PStats :=
  fun q =>
    if q = q0 then
      { st q with pointsFor := (st q).pointsFor + pf, pointsAgainst := (st q).pointsAgainst + pa }
    else st q

/-- The aggregation loop of `recordResult`: for every recorded score,
`player1.pointsFor += left; player1.pointsAgainst += right;
player2.pointsFor += right; player2.pointsAgainst += left`. -/
def addSeriesPoints (a b : Nat) : List (Nat × Nat) → (Nat → PStats) → (Nat → PStats)
  | [], st => st
  | (l, r) :: rest, st => addSeriesPoints a b rest (addPointsTo (addPointsTo st a l r) b r l)

/-- The statistics update on series completion, in source order:
`winner.wins++; loser.losses++; winner.matchesPlayed++; loser.matchesPlayed++`
then the points aggregation over all recorded scores. -/
def applyMatchStats (st : Nat → PStats) (w l a b : Nat) (scores : List (Nat × Nat)) : Nat → PStats :=
  addSeriesPoints a b scores (bumpMatchesPlayed (bumpMatchesPlayed (bumpLosses (bumpWins st w) l) w) l)

/-- `Tournament.recordResult(match, leftScore, rightScore)` on the slot at
`(r, i)`. Returns the updated state and whether the series just completed.
The `| _, _` fallback (a player reference missing) is unreachable from the
driver — the source would throw there on `winner.wins++`. -/
def recordResult (s : TState) (r i : Nat) (leftScore rightScore : Nat) : TState × Bool :=
  let mt := getSlot s.bracket r i
  let scores' := mt.scores ++ [(leftScore, rightScore)]
  let wn := winsNeeded s.matchesPerPairing
  let p1W := p1WinsOf scores'
  let p2W := p2WinsOf scores'
  if wn ≤ p1W ∨ wn ≤ p2W then
    let winnerOpt := if p2W < p1W then mt.player1 else mt.player2
    let mt' := { mt with scores := scores', winner := winnerOpt, completed := true }
    match mt.player1, mt.player2 with
    | some a, some b =>
      let w := if p2W < p1W then a else b
      let l := if p2W < p1W then b else a
      ({ s with
          bracket := setSlot s.bracket r i mt'
          stats := applyMatchStats s.stats w l a b scores'
          results := s.results ++ [(w, l, scores')] }, true)
    | _, _ => ({ s with bracket := setSlot s.bracket r i mt' }, true)
  else
    ({ s with bracket := setSlot s.bracket r i { mt with scores := scores' } }, false)

/-- `Tournament.isComplete()`: the final round's first slot is completed
(vacuously true for an empty bracket, false for an empty final round, as in
the source's truthiness check). -/
def isComplete (s : TState) : Bool :=
  if s.bracket.isEmpty then true
  else
    match (s.bracket.getD (s.bracket.length - 1) []).head? with
    | some mt => mt.completed
    | none => false

/-- `Tournament.getWinner()`: `null` unless complete, else the final slot's
winner. -/
def getWinner (s : TState) : Option Nat :=
  if isComplete s then (getSlot s.bracket (s.bracket.length - 1) 0).winner
  else none

/-- One best-of-N series at slot `(r, i)`, as driven by `GameController`:
play single games (their final scores produced by the strategy `strat`,
indexed by a running game counter `k`) and feed each into `recordResult`
until it reports the series complete. `2*winsNeeded+1` fuel always
suffices. -/
def playSeries (strat : Nat → Nat × Nat) (r i : Nat) : Nat → Nat → TState → TState × Nat
  | 0, k, s => (s, k)
  | fuel + 1, k, s =>
    let sc := strat k
    let res := recordResult s r i sc.1 sc.2
    if res.2 then (res.1, k + 1)
    else playSeries strat r i fuel (k + 1) res.1

/-- The driver loop of `GameController`: repeatedly fetch the next match and
play its series to completion, until `getNextMatch` returns `null`. One unit
of fuel per series; `totalSlots + 1` suffices. -/
def runTournament (strat : Nat → Nat × Nat) : Nat → Nat → TState → TState
  | 0, _, s => s
  | fuel + 1, k, s =>
    let gn := getNextMatch s
    match gn.2 with
    | none => gn.1
    | some (r, i) =>
      let ps := playSeries strat r i (2 * winsNeeded s.matchesPerPairing + 1) k gn.1
      runTournament strat fuel ps.2 ps.1

def totalSlots (s : TState) : Nat := (s.bracket.map List.length).sum

/-- A one-slot tournament state (two players, best-of-3) used by the C3
concrete scenarios. -/
def c3State : TState :=
  { bracket := [[{ player1 := some 0, player2 := some 1, winner := none, scores := [], completed := false }]]
    currentRound := 0
    currentMatch := 0
    matchesPerPairing := 3
    stats := fun _ => default
    results := [] }

-- ===================== Bracket shape lemmas (C2) =====================

/-- One halving step of the bracket sizes: `Math.ceil(m / 2)`. -/
def halveUp (m : Nat) : Nat := (m + 1) / 2

-- ===================== Tournament invariants (C2) =====================

/-- Consecutive round sizes halve (rounding up) and the final round has a
single slot. -/
def ShapeChain (br : List (List TMatch)) : Prop :=
  0 < br.length
  ∧ (∀ r, r + 1 < br.length →
      (br.getD (r + 1) []).length = halveUp (br.getD r []).length)
  ∧ (br.getD (br.length - 1) []).length = 1

/-- Every slot strictly before the scan position is completed. -/
def ScanPrefixDone (s : TState) : Prop :=
  ∀ r m, r < s.bracket.length → m < (s.bracket.getD r []).length →
    (r < s.currentRound ∨ (r = s.currentRound ∧ m < s.currentMatch)) →
    (getSlot s.bracket r m).completed = true

/-- Completed slots have a winner reference. -/
def WinnersSet (br : List (List TMatch)) : Prop :=
  ∀ r m, r < br.length → m < (br.getD r []).length →
    (getSlot br r m).completed = true → (getSlot br r m).winner.isSome = true

/-- Slots lacking a second player have no recorded games. -/
def ByesBlank (br : List (List TMatch)) : Prop :=
  ∀ r m, r < br.length → m < (br.getD r []).length →
    (getSlot br r m).player2 = none → (getSlot br r m).scores = []

/-- Every first-round slot carries its first player. -/
def Round0Players (br : List (List TMatch)) : Prop :=
  ∀ m, m < (br.getD 0 []).length → (getSlot br 0 m).player1.isSome = true

/-- The core invariant maintained by the tournament state machine. -/
def TInv (s : TState) : Prop :=
  ShapeChain s.bracket ∧ ScanPrefixDone s ∧ WinnersSet s.bracket
    ∧ ByesBlank s.bracket ∧ Round0Players s.bracket

/-- Slot-wise monotonicity between brackets of identical shape: completion
and player assignments only grow. -/
def SlotsMono (br br' : List (List TMatch)) : Prop :=
  ∀ r m, r < br.length → m < (br.getD r []).length →
    ((getSlot br r m).completed = true → (getSlot br' r m).completed = true)
    ∧ (∀ x, (getSlot br r m).player1 = some x → (getSlot br' r m).player1 = some x)
    ∧ (∀ x, (getSlot br r m).player2 = some x → (getSlot br' r m).player2 = some x)

/-- `q` occurs in a slot with both players populated. -/
def hasTwoPlayerSlotWith (br : List (List TMatch)) (q : Nat) : Prop :=
  ∃ r i, r < br.length ∧ i < (br.getD r []).length
    ∧ (getSlot br r i).player1.isSome = true ∧ (getSlot br r i).player2.isSome = true
    ∧ ((getSlot br r i).player1 = some q ∨ (getSlot br r i).player2 = some q)

-- ===================== getNextMatch scan specification =====================

/-- Frame and result facts established by one full `getNextMatchGo` scan:
the invariant is preserved, the bracket keeps its shape, slots only gain
completions and players, no slot gains or loses recorded games, statistics
are untouched, and the returned index (if any) is the scan position and
points at a playable two-player slot. -/
def GNMPost (s : TState) (out : TState × Option (Nat × Nat)) : Prop :=
  TInv out.1
  ∧ out.1.bracket.length = s.bracket.length
  ∧ (∀ r, (out.1.bracket.getD r []).length = (s.bracket.getD r []).length)
  ∧ SlotsMono s.bracket out.1.bracket
  ∧ (∀ r m, r < s.bracket.length → m < (s.bracket.getD r []).length →
      (getSlot out.1.bracket r m).scores = (getSlot s.bracket r m).scores)
  ∧ out.1.stats = s.stats
  ∧ out.1.matchesPerPairing = s.matchesPerPairing
  ∧ out.1.results = s.results
  ∧ (match out.2 with
     | none => out.1.bracket.length ≤ out.1.currentRound
     | some (r, i) =>
         out.1.currentRound = r ∧ out.1.currentMatch = i
         ∧ r < out.1.bracket.length ∧ i < (out.1.bracket.getD r []).length
         ∧ (getSlot out.1.bracket r i).player1.isSome = true
         ∧ (getSlot out.1.bracket r i).player2.isSome = true
         ∧ (getSlot out.1.bracket r i).completed = false)

/-- Number of not-yet-completed slots in a bracket. -/
def incompleteCount (br : List (List TMatch)) : Nat :=
  ∑ r ∈ Finset.range br.length,
    ∑ m ∈ Finset.range (br.getD r []).length,
      (if (getSlot br r m).completed = true then 0 else 1)

/-- The final state of one full tournament run: generate the bracket, then
repeatedly fetch the next match and play its best-of-`mpp` series to
completion until `getNextMatch` reports no match left (the driver loop of
`GameController`; one fuel unit per series always suffices). -/
def c2Final (players : List Nat) (mpp : Nat) (st0 : Nat → PStats)
    (strat : Nat → Nat × Nat) : TState :=
  runTournament strat
    (((generateBracket players mpp st0).bracket.map List.length).sum + 1) 0
    (generateBracket players mpp st0)

-- ===================== Theorems =====================

theorem geneMin_lt_geneMax : ∀ g : Gene, geneMin g < geneMax g := by
  intro g; cases g <;> norm_num [geneMin, geneMax]

/-- A convex combination `a*t + b*(1-t)` with `t ∈ [0,1]` stays between the
two endpoints. -/
theorem convex_comb_mem (a b t : ℚ) (h0 : 0 ≤ t) (h1 : t ≤ 1) :
    min a b ≤ a * t + b * (1 - t) ∧ a * t + b * (1 - t) ≤ max a b := by
  constructor
  · rcases le_total a b with h | h
    · rw [min_eq_left h]
      nlinarith [mul_nonneg (sub_nonneg.mpr h) (by linarith : (0:ℚ) ≤ 1 - t)]
    · rw [min_eq_right h]
      nlinarith [mul_nonneg (sub_nonneg.mpr h) h0]
  · rcases le_total a b with h | h
    · rw [max_eq_right h]
      nlinarith [mul_nonneg (sub_nonneg.mpr h) h0]
    · rw [max_eq_left h]
      nlinarith [mul_nonneg (sub_nonneg.mpr h) (by linarith : (0:ℚ) ≤ 1 - t)]

/-- C1: for schema-conformant parents, every gene of `crossover` is either a
parent's value or a convex blend `parent1*t + parent2*(1-t)` with `t ∈ [0,1]`,
hence lies in `[min(a,b), max(a,b)]` and in the schema's `[min,max]`; every
gene of `createRandomGenome` (randoms in `[0,1)`) and of `mutate` (in-bounds
input genome, arbitrary rate) lies in its gene's `[min,max]`. -/
theorem genome_ops_bounds (parent1 parent2 genome : Genome)
    (h1 : genomeInBounds parent1) (h2 : genomeInBounds parent2)
    (hg : genomeInBounds genome)
    (rand rPick rChk rBlend rMChk rNoise : Gene → ℚ) (mutationRate : ℚ)
    (hrand : ∀ g, 0 ≤ rand g ∧ rand g < 1)
    (hblend : ∀ g, 0 ≤ rBlend g ∧ rBlend g < 1) :
    genomeInBounds (createRandomGenome rand)
    ∧ (∀ g, crossover parent1 parent2 rPick rChk rBlend g = parent1 g
        ∨ crossover parent1 parent2 rPick rChk rBlend g = parent2 g
        ∨ ∃ t, 0 ≤ t ∧ t ≤ 1
            ∧ crossover parent1 parent2 rPick rChk rBlend g
              = parent1 g * t + parent2 g * (1 - t))
    ∧ (∀ g, min (parent1 g) (parent2 g) ≤ crossover parent1 parent2 rPick rChk rBlend g
        ∧ crossover parent1 parent2 rPick rChk rBlend g ≤ max (parent1 g) (parent2 g))
    ∧ genomeInBounds (crossover parent1 parent2 rPick rChk rBlend)
    ∧ genomeInBounds (mutate genome mutationRate rMChk rNoise) := by
  have hcross_mem : ∀ g, min (parent1 g) (parent2 g)
      ≤ crossover parent1 parent2 rPick rChk rBlend g
      ∧ crossover parent1 parent2 rPick rChk rBlend g ≤ max (parent1 g) (parent2 g) := by
    intro g
    simp only [crossover]
    by_cases hb : rChk g < 3/10
    · rw [if_pos hb]
      exact convex_comb_mem _ _ _ (hblend g).1 (le_of_lt (hblend g).2)
    · rw [if_neg hb]
      by_cases hp : rPick g < 1/2
      · rw [if_pos hp]; exact ⟨min_le_left _ _, le_max_left _ _⟩
      · rw [if_neg hp]; exact ⟨min_le_right _ _, le_max_right _ _⟩
  refine ⟨?_, ?_, hcross_mem, ?_, ?_⟩
  · intro g
    have hlt := geneMin_lt_geneMax g
    have hr := hrand g
    simp only [createRandomGenome]
    constructor
    · nlinarith [mul_nonneg hr.1 (by linarith : (0:ℚ) ≤ geneMax g - geneMin g)]
    · nlinarith [mul_le_mul_of_nonneg_right (le_of_lt hr.2)
        (by linarith : (0:ℚ) ≤ geneMax g - geneMin g)]
  · intro g
    simp only [crossover]
    by_cases hb : rChk g < 3/10
    · rw [if_pos hb]
      exact Or.inr (Or.inr ⟨rBlend g, (hblend g).1, le_of_lt (hblend g).2, rfl⟩)
    · rw [if_neg hb]
      by_cases hp : rPick g < 1/2
      · rw [if_pos hp]; exact Or.inl rfl
      · rw [if_neg hp]; exact Or.inr (Or.inl rfl)
  · intro g
    have hm := hcross_mem g
    have b1 := h1 g
    have b2 := h2 g
    constructor
    · calc geneMin g ≤ min (parent1 g) (parent2 g) := le_min b1.1 b2.1
        _ ≤ _ := hm.1
    · calc crossover parent1 parent2 rPick rChk rBlend g
          ≤ max (parent1 g) (parent2 g) := hm.2
        _ ≤ geneMax g := max_le b1.2 b2.2
  · intro g
    have hlt := geneMin_lt_geneMax g
    have hb := hg g
    simp only [mutate]
    by_cases hc : rMChk g < mutationRate
    · rw [if_pos hc]
      exact ⟨le_max_left _ _, max_le (le_of_lt hlt) (min_le_left _ _)⟩
    · rw [if_neg hc]
      exact hb

/-- Witness for `genome_ops_bounds` at concrete inputs. -/
theorem genome_ops_bounds_witness :
    genomeInBounds (createRandomGenome fun _ => 1/2)
    ∧ genomeInBounds (crossover geneMin geneMax (fun _ => 1/4) (fun _ => 1/4) (fun _ => 1/2))
    ∧ genomeInBounds (mutate geneMin (3/2) (fun _ => 0) (fun _ => 9/10)) := by
  have hmm : genomeInBounds geneMin := by
    intro g; exact ⟨le_refl _, le_of_lt (geneMin_lt_geneMax g)⟩
  have hMM : genomeInBounds geneMax := by
    intro g; exact ⟨le_of_lt (geneMin_lt_geneMax g), le_refl _⟩
  have h := genome_ops_bounds geneMin geneMax geneMin hmm hMM hmm
    (fun _ => 1/2) (fun _ => 1/4) (fun _ => 1/4) (fun _ => 1/2) (fun _ => 0) (fun _ => 9/10)
    (3/2) (by intro g; norm_num) (by intro g; norm_num)
  exact ⟨h.1, h.2.2.2.1, h.2.2.2.2⟩

/-- C6 counterexample: `calculateFitness` does not set
`fitness = (wins/matchesPlayed)*1000 + ((pointsFor-pointsAgainst)/matchesPlayed)*10`
exactly — the code rounds with `Math.round`. With 1 win in 3 matches the
formula gives 1000/3 but the code stores 333. -/
theorem calculateFitness_not_exact_formula :
    (calculateFitness fitnessCounterexamplePlayer).fitness = 333
    ∧ (calculateFitness fitnessCounterexamplePlayer).fitness
      ≠ ((fitnessCounterexamplePlayer.wins : ℚ) / (fitnessCounterexamplePlayer.matchesPlayed : ℚ)) * 1000
        + (((fitnessCounterexamplePlayer.pointsFor : ℚ) - (fitnessCounterexamplePlayer.pointsAgainst : ℚ))
            / (fitnessCounterexamplePlayer.matchesPlayed : ℚ)) * 10 := by
  have h : (calculateFitness fitnessCounterexamplePlayer).fitness = 333 := by
    simp only [calculateFitness, fitnessCounterexamplePlayer, mkPlayer]
    norm_num
    have h3 : jsRound (1000/3 : ℚ) = 333 := by
      unfold jsRound
      rw [show (1000:ℚ)/3 + 1/2 = 2003/6 by norm_num]
      rw [Int.floor_eq_iff]
      norm_num
    rw [h3]
    norm_num
  refine ⟨h, ?_⟩
  rw [h]
  simp only [fitnessCounterexamplePlayer, mkPlayer]
  norm_num

/-- C6 (amended): `calculateFitness` sets `fitness = 0` when
`matchesPlayed = 0` (never dividing by zero), and otherwise sets
`fitness = Math.round((wins/matchesPlayed)*1000 +
((pointsFor − pointsAgainst)/matchesPlayed)*10)`, i.e. the claimed formula
rounded half-up to the nearest integer; no other field changes. -/
theorem calculateFitness_spec (p : Player) :
    (p.matchesPlayed = 0 → (calculateFitness p).fitness = 0)
    ∧ (p.matchesPlayed ≠ 0 → (calculateFitness p).fitness
        = (jsRound (((p.wins : ℚ) / (p.matchesPlayed : ℚ)) * 1000
            + (((p.pointsFor : ℚ) - (p.pointsAgainst : ℚ)) / (p.matchesPlayed : ℚ)) * 10) : ℚ))
    ∧ (calculateFitness p).wins = p.wins
    ∧ (calculateFitness p).losses = p.losses
    ∧ (calculateFitness p).pointsFor = p.pointsFor
    ∧ (calculateFitness p).pointsAgainst = p.pointsAgainst
    ∧ (calculateFitness p).matchesPlayed = p.matchesPlayed
    ∧ (calculateFitness p).genome = p.genome := by
  by_cases h : p.matchesPlayed = 0 <;>
    simp [calculateFitness, h]

/-- Witness for `calculateFitness_spec`: both branches at concrete players. -/
theorem calculateFitness_spec_witness :
    (calculateFitness (mkPlayer 0 geneMin 0 0)).fitness = 0
    ∧ (calculateFitness fitnessCounterexamplePlayer).fitness
      = (jsRound (((fitnessCounterexamplePlayer.wins : ℚ) / (fitnessCounterexamplePlayer.matchesPlayed : ℚ)) * 1000
          + (((fitnessCounterexamplePlayer.pointsFor : ℚ) - (fitnessCounterexamplePlayer.pointsAgainst : ℚ))
              / (fitnessCounterexamplePlayer.matchesPlayed : ℚ)) * 10) : ℚ) := by
  constructor
  · exact (calculateFitness_spec (mkPlayer 0 geneMin 0 0)).1 rfl
  · exact (calculateFitness_spec fitnessCounterexamplePlayer).2.1 (by norm_num [fitnessCounterexamplePlayer, mkPlayer])

/-- C10: starting from the constructor state (`lastTargetY = smoothedY =
CANVAS_HEIGHT/2 = 250 ∈ [40, 460]`), every `calculateTarget` call on a player
whose genome is within schema bounds returns a value in
`[PADDLE_HEIGHT/2, CANVAS_HEIGHT − PADDLE_HEIGHT/2] = [40, 460]` — including
reaction-delay frames, which return the stored `lastTargetY` — and leaves
`smoothedY` and `lastTargetY` inside that range, because each update is a
convex combination of the previous in-range value and a clamped target. -/
theorem calculateTarget_range (p : Player) (ball : Ball) (isLeftSide : Bool) (rErr rJit : ℚ)
    (hg : genomeInBounds p.genome)
    (hlast : 40 ≤ p.lastTargetY ∧ p.lastTargetY ≤ 460)
    (hsm : 40 ≤ p.smoothedY ∧ p.smoothedY ≤ 460) :
    (40 ≤ (calculateTarget p ball isLeftSide rErr rJit).2
      ∧ (calculateTarget p ball isLeftSide rErr rJit).2 ≤ 460)
    ∧ (40 ≤ (calculateTarget p ball isLeftSide rErr rJit).1.lastTargetY
      ∧ (calculateTarget p ball isLeftSide rErr rJit).1.lastTargetY ≤ 460)
    ∧ (40 ≤ (calculateTarget p ball isLeftSide rErr rJit).1.smoothedY
      ∧ (calculateTarget p ball isLeftSide rErr rJit).1.smoothedY ≤ 460)
    ∧ (∀ gref genome name generation, (mkPlayer gref genome name generation).lastTargetY = 250
        ∧ (mkPlayer gref genome name generation).smoothedY = 250) := by
  have hms := hg Gene.movementSmoothing
  rw [show geneMin Gene.movementSmoothing = 0 from rfl,
    show geneMax Gene.movementSmoothing = 9/10 from rfl] at hms
  have hbase : ∀ gref genome name generation, (mkPlayer gref genome name generation).lastTargetY = 250
      ∧ (mkPlayer gref genome name generation).smoothedY = 250 := by
    intro gref genome name generation
    constructor <;> norm_num [mkPlayer, CANVAS_HEIGHT]
  simp only [calculateTarget]
  by_cases hd : ((p.reactionCounter + 1 : Nat) : ℚ) < p.genome Gene.reactionDelay
  · rw [if_pos hd]
    exact ⟨hlast, hlast, hsm, hbase⟩
  · rw [if_neg hd]
    set T := calcRawTarget { p with reactionCounter := 0 } ball isLeftSide rErr rJit with hT
    have hclamp1 : (40 : ℚ) ≤ max (PADDLE_HEIGHT / 2) (min (CANVAS_HEIGHT - PADDLE_HEIGHT / 2) T) := by
      have : PADDLE_HEIGHT / 2 = (40 : ℚ) := by norm_num [PADDLE_HEIGHT]
      rw [← this]
      exact le_max_left _ _
    have hclamp2 : max (PADDLE_HEIGHT / 2) (min (CANVAS_HEIGHT - PADDLE_HEIGHT / 2) T) ≤ (460 : ℚ) := by
      apply max_le
      · norm_num [PADDLE_HEIGHT]
      · calc min (CANVAS_HEIGHT - PADDLE_HEIGHT / 2) T ≤ CANVAS_HEIGHT - PADDLE_HEIGHT / 2 :=
            min_le_left _ _
          _ ≤ 460 := by norm_num [CANVAS_HEIGHT, PADDLE_HEIGHT]
    set C := max (PADDLE_HEIGHT / 2) (min (CANVAS_HEIGHT - PADDLE_HEIGHT / 2) T) with hC
    have hconv : 40 ≤ p.smoothedY * p.genome Gene.movementSmoothing + C * (1 - p.genome Gene.movementSmoothing)
        ∧ p.smoothedY * p.genome Gene.movementSmoothing + C * (1 - p.genome Gene.movementSmoothing) ≤ 460 := by
      constructor
      · nlinarith [mul_le_mul_of_nonneg_right hsm.1 hms.1,
          mul_le_mul_of_nonneg_right hclamp1 (by linarith : (0:ℚ) ≤ 1 - p.genome Gene.movementSmoothing)]
      · nlinarith [mul_le_mul_of_nonneg_right hsm.2 hms.1,
          mul_le_mul_of_nonneg_right hclamp2 (by linarith : (0:ℚ) ≤ 1 - p.genome Gene.movementSmoothing)]
    exact ⟨hconv, hconv, hconv, hbase⟩

/-- Witness for `calculateTarget_range` at a concrete player and ball. -/
theorem calculateTarget_range_witness :
    (40 ≤ (calculateTarget (mkPlayer 0 geneMax 0 0) ⟨400, 250, -3, 2⟩ true (1/2) (1/2)).2
      ∧ (calculateTarget (mkPlayer 0 geneMax 0 0) ⟨400, 250, -3, 2⟩ true (1/2) (1/2)).2 ≤ 460) := by
  have hb : genomeInBounds geneMax := by
    intro g; exact ⟨le_of_lt (geneMin_lt_geneMax g), le_refl _⟩
  have h := calculateTarget_range (mkPlayer 0 geneMax 0 0) ⟨400, 250, -3, 2⟩ true (1/2) (1/2)
    hb (by norm_num [mkPlayer, CANVAS_HEIGHT]) (by norm_num [mkPlayer, CANVAS_HEIGHT])
  exact h.1

theorem length_insertByFitness (p : Player) (l : List Player) :
    (insertByFitness p l).length = l.length + 1 := by
  induction l with
  | nil => rfl
  | cons q rest ih =>
    simp only [insertByFitness]
    by_cases h : q.fitness ≤ p.fitness
    · rw [if_pos h]; rfl
    · rw [if_neg h]; simp [ih]

theorem length_sortByFitnessDesc (l : List Player) :
    (sortByFitnessDesc l).length = l.length := by
  induction l with
  | nil => rfl
  | cons p rest ih => simp [sortByFitnessDesc, length_insertByFitness, ih]

theorem mem_insertByFitness {x p : Player} {l : List Player} :
    x ∈ insertByFitness p l ↔ x = p ∨ x ∈ l := by
  induction l with
  | nil => simp [insertByFitness]
  | cons q rest ih =>
    simp only [insertByFitness]
    by_cases h : q.fitness ≤ p.fitness
    · rw [if_pos h]; simp
    · rw [if_neg h]
      simp only [List.mem_cons, ih]
      tauto

theorem mem_sortByFitnessDesc {x : Player} {l : List Player} :
    x ∈ sortByFitnessDesc l ↔ x ∈ l := by
  induction l with
  | nil => simp [sortByFitnessDesc]
  | cons p rest ih =>
    simp only [sortByFitnessDesc, mem_insertByFitness, ih, List.mem_cons]

theorem pairwise_insertByFitness (p : Player) (l : List Player)
    (h : l.Pairwise (fun a b => b.fitness ≤ a.fitness)) :
    (insertByFitness p l).Pairwise (fun a b => b.fitness ≤ a.fitness) := by
  induction l with
  | nil => simp [insertByFitness]
  | cons q rest ih =>
    simp only [insertByFitness]
    rcases List.pairwise_cons.mp h with ⟨hq, hrest⟩
    by_cases hc : q.fitness ≤ p.fitness
    · rw [if_pos hc]
      refine List.pairwise_cons.mpr ⟨?_, h⟩
      intro x hx
      rcases List.mem_cons.mp hx with rfl | hx
      · exact hc
      · exact le_trans (hq x hx) hc
    · rw [if_neg hc]
      refine List.pairwise_cons.mpr ⟨?_, ih hrest⟩
      intro x hx
      rcases mem_insertByFitness.mp hx with rfl | hx
      · exact le_of_lt (lt_of_not_le hc)
      · exact hq x hx

theorem pairwise_sortByFitnessDesc (l : List Player) :
    (sortByFitnessDesc l).Pairwise (fun a b => b.fitness ≤ a.fitness) := by
  induction l with
  | nil => simp [sortByFitnessDesc]
  | cons p rest ih => exact pairwise_insertByFitness p _ ih

theorem pairwise_take_drop {R : Player → Player → Prop} (l : List Player) (k : Nat)
    (h : l.Pairwise R) : ∀ a ∈ l.take k, ∀ b ∈ l.drop k, R a b := by
  have h2 : (l.take k ++ l.drop k).Pairwise R := by rw [List.take_append_drop]; exact h
  exact fun a ha b hb => (List.pairwise_append.mp h2).2.2 a ha b hb

theorem breedLoop_append (survivors : List Player) (mutationRate : ℚ) (rand : Nat → EvoRand)
    (targetLen nameCtr allocCtr : Nat) :
    ∀ (n i : Nat) (acc : List Player), targetLen - acc.length = n →
      ∃ t, breedLoop survivors mutationRate rand targetLen nameCtr allocCtr i acc = acc ++ t := by
  intro n
  induction n with
  | zero =>
    intro i acc hn
    rw [breedLoop.eq_def, if_neg (by omega)]
    exact ⟨[], (List.append_nil acc).symm⟩
  | succ n ih =>
    intro i acc hn
    by_cases h : acc.length < targetLen
    · rw [breedLoop.eq_def, if_pos h]
      obtain ⟨t, ht⟩ := ih (i + 1)
        (acc ++ [breed (tournamentSelect survivors (rand i).sel1)
          (tournamentSelect survivors (rand i).sel2) mutationRate (rand i)
          (allocCtr + i) (nameCtr + i)]) (by simp; omega)
      exact ⟨breed (tournamentSelect survivors (rand i).sel1)
          (tournamentSelect survivors (rand i).sel2) mutationRate (rand i)
          (allocCtr + i) (nameCtr + i) :: t, by rw [ht]; simp⟩
    · rw [breedLoop.eq_def, if_neg h]
      exact ⟨[], (List.append_nil acc).symm⟩

theorem breedLoop_length (survivors : List Player) (mutationRate : ℚ) (rand : Nat → EvoRand)
    (targetLen nameCtr allocCtr : Nat) :
    ∀ (n i : Nat) (acc : List Player), targetLen - acc.length = n → acc.length ≤ targetLen →
      (breedLoop survivors mutationRate rand targetLen nameCtr allocCtr i acc).length
        = targetLen := by
  intro n
  induction n with
  | zero =>
    intro i acc hn hle
    rw [breedLoop.eq_def, if_neg (by omega)]
    omega
  | succ n ih =>
    intro i acc hn hle
    have h : acc.length < targetLen := by omega
    rw [breedLoop.eq_def, if_pos h]
    exact ih (i + 1) (acc ++ [_]) (by simp; omega) (by simp; omega)

/-- C4: `evolve()` on a population of size N ≥ 2 yields exactly N players
(breeding appends one child at a time and stops exactly at the target size,
so it never overshoots), and the survivor pool is the top `ceil(N/2)` of the
fitness-sorted population: it has exactly `ceil(N/2)` players and every
survivor's fitness is at least that of every dropped player. -/
theorem evolve_size (pop : List Player) (generation : Nat) (mutationRate : ℚ)
    (rand : Nat → EvoRand) (nameCtr allocCtr : Nat) (hN : 2 ≤ pop.length) :
    (evolve pop generation mutationRate rand nameCtr allocCtr).length = pop.length
    ∧ (survivorsOf pop).length = (pop.length + 1) / 2
    ∧ (∀ a ∈ survivorsOf pop,
        ∀ b ∈ (sortByFitnessDesc (pop.map calculateFitness)).drop ((pop.length + 1) / 2),
          b.fitness ≤ a.fitness) := by
  refine ⟨?_, ?_, ?_⟩
  · simp only [evolve]
    rw [List.length_map]
    exact breedLoop_length _ _ _ _ _ _ (pop.length - 1) 0 _ (by simp) (by simp; omega)
  · simp only [survivorsOf]
    rw [List.length_take, length_sortByFitnessDesc, List.length_map]
    omega
  · intro a ha b hb
    exact pairwise_take_drop _ _ (pairwise_sortByFitnessDesc _) a ha b hb

/-- Witness for `evolve_size` on a concrete population of size 3. -/
theorem evolve_size_witness :
    (evolve [defaultPlayer, defaultPlayer, defaultPlayer] 1 (1/10)
        (fun _ => ⟨fun _ => 0, fun _ => 0, fun _ => 0, fun _ => 0, fun _ => 0, fun _ => 0, fun _ => 0⟩)
        100 100).length = 3 := by
  have h := evolve_size [defaultPlayer, defaultPlayer, defaultPlayer] 1 (1/10)
    (fun _ => ⟨fun _ => 0, fun _ => 0, fun _ => 0, fun _ => 0, fun _ => 0, fun _ => 0, fun _ => 0⟩)
    100 100 (by norm_num)
  exact h.1

theorem calculateFitness_genomeRef (p : Player) :
    (calculateFitness p).genomeRef = p.genomeRef := by
  by_cases h : p.matchesPlayed = 0 <;> simp [calculateFitness, h]

theorem getD_zero_mem {α : Type} (l : List α) (d : α) (h : l ≠ []) : l.getD 0 d ∈ l := by
  cases l with
  | nil => exact absurd rfl h
  | cons a t => simp [List.getD]

/-- C5: after `evolve()`, the new population contains a player (the elite)
whose genome is value-equal, gene for gene, to the fittest survivor's genome
(`survivors[0]`, the head of the fitness-sorted population — its fitness is
maximal), held under a fresh genome reference (the `{ ...genome }` copy in
`clone()`), with every statistic reset to zero and generation advanced to
`generation + 1`. -/
theorem evolve_elitism (pop : List Player) (generation : Nat) (mutationRate : ℚ)
    (rand : Nat → EvoRand) (nameCtr allocCtr : Nat)
    (hN : 1 ≤ pop.length)
    (hfresh : ∀ p ∈ pop, p.genomeRef ≠ allocCtr) :
    ∃ q ∈ evolve pop generation mutationRate rand nameCtr allocCtr,
      (∀ g, q.genome g = ((survivorsOf pop).getD 0 defaultPlayer).genome g)
      ∧ q.genomeRef ≠ ((survivorsOf pop).getD 0 defaultPlayer).genomeRef
      ∧ q.wins = 0 ∧ q.losses = 0 ∧ q.pointsFor = 0 ∧ q.pointsAgainst = 0
      ∧ q.matchesPlayed = 0 ∧ q.fitness = 0
      ∧ q.generation = generation + 1
      ∧ (∀ p ∈ pop.map calculateFitness,
          p.fitness ≤ ((survivorsOf pop).getD 0 defaultPlayer).fitness) := by
  classical
  set sorted := sortByFitnessDesc (pop.map calculateFitness) with hsorted
  have hslen : sorted.length = pop.length := by
    rw [hsorted, length_sortByFitnessDesc, List.length_map]
  have hk : 1 ≤ (pop.length + 1) / 2 := by omega
  obtain ⟨a, rest, hcons⟩ : ∃ a rest, sorted = a :: rest := by
    cases hs : sorted with
    | nil => rw [hs] at hslen; simp at hslen; omega
    | cons a rest => exact ⟨a, rest, rfl⟩
  have hsurv : survivorsOf pop = sorted.take ((pop.length + 1) / 2) := rfl
  have hbest : (survivorsOf pop).getD 0 defaultPlayer = a := by
    rw [hsurv, hcons]
    obtain ⟨j, hj⟩ : ∃ j, (pop.length + 1) / 2 = j + 1 :=
      ⟨(pop.length + 1) / 2 - 1, by omega⟩
    rw [hj]
    simp [List.getD]
  -- `a` is a member of the original population image, so its genomeRef is stale
  have hamem : a ∈ pop.map calculateFitness := by
    have : a ∈ sorted := by rw [hcons]; exact List.mem_cons_self a rest
    exact mem_sortByFitnessDesc.mp this
  obtain ⟨p0, hp0, hp0a⟩ := List.mem_map.mp hamem
  have haref : a.genomeRef ≠ allocCtr := by
    rw [← hp0a, calculateFitness_genomeRef]
    exact hfresh p0 hp0
  -- the head of the breeding loop is the reset elite
  obtain ⟨t, ht⟩ := breedLoop_append (survivorsOf pop) mutationRate rand pop.length
    (nameCtr + 1) (allocCtr + 1) (pop.length - 1) 0
    [resetStats { clonePlayer ((survivorsOf pop).getD 0 defaultPlayer) allocCtr nameCtr with
      name := ((survivorsOf pop).getD 0 defaultPlayer).name, generation := generation + 1 }]
    (by simp)
  have hev : evolve pop generation mutationRate rand nameCtr allocCtr
      = resetStats (resetStats { clonePlayer ((survivorsOf pop).getD 0 defaultPlayer) allocCtr nameCtr with
          name := ((survivorsOf pop).getD 0 defaultPlayer).name, generation := generation + 1 })
        :: t.map resetStats := by
    show (breedLoop (survivorsOf pop) mutationRate rand pop.length
      (nameCtr + 1) (allocCtr + 1) 0 _).map resetStats = _
    rw [ht]
    simp
  refine ⟨_, by rw [hev]; exact List.mem_cons_self _ _, ?_, ?_, ?_, ?_, ?_, ?_, ?_, ?_, ?_, ?_⟩
  · intro g; simp [resetStats, clonePlayer, mkPlayer]
  · rw [hbest]
    simp only [resetStats, clonePlayer, mkPlayer]
    intro hcontra
    exact haref hcontra.symm
  · simp [resetStats]
  · simp [resetStats]
  · simp [resetStats]
  · simp [resetStats]
  · simp [resetStats]
  · simp [resetStats]
  · simp [resetStats, clonePlayer, mkPlayer]
  · intro p hp
    have hpw := pairwise_sortByFitnessDesc (pop.map calculateFitness)
    rw [← hsorted, hcons, List.pairwise_cons] at hpw
    have hps : p ∈ sorted := mem_sortByFitnessDesc.mpr hp
    rw [hcons] at hps
    rw [hbest]
    rcases List.mem_cons.mp hps with rfl | hps
    · exact le_refl _
    · exact hpw.1 p hps

/-- Witness for `evolve_elitism` on a concrete population. -/
theorem evolve_elitism_witness :
    ∃ q ∈ evolve [defaultPlayer] 1 (1/10)
        (fun _ => ⟨fun _ => 0, fun _ => 0, fun _ => 0, fun _ => 0, fun _ => 0, fun _ => 0, fun _ => 0⟩)
        100 100,
      (∀ g, q.genome g = ((survivorsOf [defaultPlayer]).getD 0 defaultPlayer).genome g)
      ∧ q.genomeRef ≠ ((survivorsOf [defaultPlayer]).getD 0 defaultPlayer).genomeRef
      ∧ q.wins = 0 ∧ q.losses = 0 ∧ q.pointsFor = 0 ∧ q.pointsAgainst = 0
      ∧ q.matchesPlayed = 0 ∧ q.fitness = 0
      ∧ q.generation = 2
      ∧ (∀ p ∈ [defaultPlayer].map calculateFitness,
          p.fitness ≤ ((survivorsOf [defaultPlayer]).getD 0 defaultPlayer).fitness) := by
  exact evolve_elitism [defaultPlayer] 1 (1/10)
    (fun _ => ⟨fun _ => 0, fun _ => 0, fun _ => 0, fun _ => 0, fun _ => 0, fun _ => 0, fun _ => 0⟩)
    100 100 (by norm_num)
    (by intro p hp; simp only [List.mem_singleton] at hp; subst hp; norm_num [defaultPlayer, mkPlayer])

/-- C9 (code bug): no configuration validation exists. `initPopulation(0)`
silently produces an empty population instead of failing, and `evolve` with a
mutation rate outside [0,1] (here 1.5) runs normally; the claimed
at-initialization rejection never happens (with size 0 the real code instead
crashes later, mid-run, at `survivors[0].clone()`). -/
theorem initPopulation_accepts_invalid_config :
    initPopulation 0 (fun _ _ => 1/2) 0 0 = []
    ∧ (evolve (initPopulation 2 (fun _ _ => 1/2) 0 0) 1 (3/2)
        (fun _ => ⟨fun _ => 0, fun _ => 0, fun _ => 0, fun _ => 0, fun _ => 0, fun _ => 0, fun _ => 0⟩)
        100 200).length = 2 := by
  constructor
  · rfl
  · simp only [evolve]
    rw [List.length_map]
    rw [breedLoop_length _ _ _ _ _ _ ((initPopulation 2 (fun _ _ => 1/2) 0 0).length - 1) 0 _
      (by simp) (by simp [initPopulation])]
    simp [initPopulation]

/-- C7: `serve()` resets the ball to the canvas center, gives it velocity at
a random angle within ±60° (±π/3 — in fact within ±π/6) of the horizontal
serve direction with magnitude exactly BALL_SPEED = 6, and flips the serve
direction so consecutive serves alternate. -/
theorem serve_spec (serveDirection r : ℝ) (hd : serveDirection = 1 ∨ serveDirection = -1)
    (hr : 0 ≤ r ∧ r < 1) :
    (serve serveDirection r).1.x = 400
    ∧ (serve serveDirection r).1.y = 250
    ∧ ((serve serveDirection r).1.vx) ^ 2 + ((serve serveDirection r).1.vy) ^ 2 = 6 ^ 2
    ∧ Real.sqrt (((serve serveDirection r).1.vx) ^ 2 + ((serve serveDirection r).1.vy) ^ 2) = 6
    ∧ (∃ θ : ℝ, |θ| ≤ Real.pi / 3
        ∧ (serve serveDirection r).1.vx = 6 * serveDirection * Real.cos θ
        ∧ (serve serveDirection r).1.vy = 6 * Real.sin θ)
    ∧ (serve serveDirection r).2 = -serveDirection := by
  have hd2 : serveDirection ^ 2 = 1 := by rcases hd with h | h <;> rw [h] <;> norm_num
  have hmag : ((serve serveDirection r).1.vx) ^ 2 + ((serve serveDirection r).1.vy) ^ 2 = 6 ^ 2 := by
    simp only [serve]
    have hpyth := Real.sin_sq_add_cos_sq ((r - 1/2) * (Real.pi / 3))
    nlinarith [hpyth, hd2]
  refine ⟨by norm_num [serve], by norm_num [serve], hmag, ?_, ?_, by simp [serve]⟩
  · rw [hmag]
    exact Real.sqrt_sq (by norm_num)
  · refine ⟨(r - 1/2) * (Real.pi / 3), ?_, rfl, rfl⟩
    rw [abs_mul, abs_of_pos (by positivity : (0:ℝ) < Real.pi / 3)]
    have : |r - 1/2| ≤ 1/2 := by
      rw [abs_le]
      constructor <;> linarith [hr.1, hr.2]
    nlinarith [Real.pi_pos, this]

/-- Witness for `serve_spec` at `r = 1/2`, direction 1. -/
theorem serve_spec_witness :
    (serve 1 (1/2)).1.x = 400 ∧ (serve 1 (1/2)).2 = -1 := by
  have h := serve_spec 1 (1/2) (Or.inl rfl) (by norm_num)
  exact ⟨h.1, by rw [h.2.2.2.2.2]⟩

/-- C8 counterexample: the engine does NOT clamp the hit offset to [-1, 1].
With the left paddle at (30, 100) and the ball at (35, 145) moving left, the
collision test passes but the hit offset is 9/8 > 1, and the resulting
vertical velocity differs from the claimed clamped-offset response. -/
theorem checkPaddleCollision_no_clamp :
    paddleCollides ⟨35, 145, -3, 4⟩ ⟨30, 100⟩ true
    ∧ hitPosOf ⟨35, 145, -3, 4⟩ ⟨30, 100⟩ = 9/8
    ∧ ¬ (hitPosOf ⟨35, 145, -3, 4⟩ ⟨30, 100⟩ ≤ 1)
    ∧ (checkPaddleCollision ⟨35, 145, -3, 4⟩ ⟨30, 100⟩ true).vy
      ≠ (checkPaddleCollisionClamped ⟨35, 145, -3, 4⟩ ⟨30, 100⟩ true).vy := by
  have hcol : paddleCollides ⟨35, 145, -3, 4⟩ ⟨30, 100⟩ true := by
    norm_num [paddleCollides]
  have hhp : hitPosOf ⟨35, 145, -3, 4⟩ ⟨30, 100⟩ = 9/8 := by
    norm_num [hitPosOf]
  have hsqrt : Real.sqrt (((-3:ℝ)) ^ 2 + (4:ℝ) ^ 2) = 5 := by
    rw [show ((-3:ℝ)) ^ 2 + (4:ℝ) ^ 2 = 5 ^ 2 by norm_num]
    exact Real.sqrt_sq (by norm_num)
  have hspeed : min (Real.sqrt (((-3:ℝ)) ^ 2 + (4:ℝ) ^ 2) * (21/20)) 15 = 21/4 := by
    rw [hsqrt, show (5:ℝ) * (21/20) = 21/4 by norm_num]
    exact min_eq_left (by norm_num)
  have hclamped : max (-1) (min 1 (hitPosOf ⟨35, 145, -3, 4⟩ ⟨30, 100⟩)) = 1 := by
    rw [hhp, min_eq_left (by norm_num : (1:ℝ) ≤ 9/8)]
    exact max_eq_right (by norm_num)
  have hsin : Real.sin ((1:ℝ) * (Real.pi / 3)) < Real.sin ((9/8 : ℝ) * (Real.pi / 3)) := by
    apply Real.sin_lt_sin_of_lt_of_le_pi_div_two
    · nlinarith [Real.pi_pos]
    · nlinarith [Real.pi_pos]
    · nlinarith [Real.pi_pos]
  refine ⟨hcol, hhp, by rw [hhp]; norm_num, ?_⟩
  simp only [checkPaddleCollision, checkPaddleCollisionClamped, if_pos hcol]
  rw [hclamped, hhp, hspeed]
  intro hcontra
  have h1 : Real.sin ((9/8 : ℝ) * (Real.pi / 3)) = Real.sin ((1:ℝ) * (Real.pi / 3)) := by
    have h20 : (21/4 : ℝ) ≠ 0 := by norm_num
    exact mul_left_cancel₀ h20 hcontra
  linarith [hsin, h1.le, h1.ge]

/-- C8 (amended): on a collision (the overlap test of the source), the engine
computes the hit offset as (ball.y − paddle.y) divided by half the paddle
height WITHOUT clamping — the overlap test itself only bounds it to
[-23/20, 23/20] — sets the bounce angle to offset × 60°, the new speed to
min(current speed × 1.05, MAX_BALL_SPEED) (hence ≤ 15), sets the velocity
from that angle and speed with the horizontal direction away from the struck
paddle, and repositions the ball just outside the paddle. -/
theorem checkPaddleCollision_spec (ball : BallR) (paddle : PaddleR) (isLeft : Bool)
    (h : paddleCollides ball paddle isLeft) :
    (checkPaddleCollision ball paddle isLeft).vy
        = min (Real.sqrt (ball.vx ^ 2 + ball.vy ^ 2) * (21/20)) 15
          * Real.sin (hitPosOf ball paddle * (Real.pi / 3))
    ∧ (checkPaddleCollision ball paddle isLeft).vx
        = min (Real.sqrt (ball.vx ^ 2 + ball.vy ^ 2) * (21/20)) 15
          * Real.cos (hitPosOf ball paddle * (Real.pi / 3)) * (if isLeft then 1 else -1)
    ∧ (checkPaddleCollision ball paddle isLeft).x
        = (if isLeft then paddle.x + 15/2 + 12/2 else paddle.x - 15/2 - 12/2)
    ∧ (checkPaddleCollision ball paddle isLeft).y = ball.y
    ∧ -(23/20) ≤ hitPosOf ball paddle ∧ hitPosOf ball paddle ≤ 23/20
    ∧ min (Real.sqrt (ball.vx ^ 2 + ball.vy ^ 2) * (21/20)) 15 ≤ 15
    ∧ (isLeft = true → 0 < (checkPaddleCollision ball paddle isLeft).vx)
    ∧ (isLeft = false → (checkPaddleCollision ball paddle isLeft).vx < 0) := by
  obtain ⟨hdir, hv1, hv2⟩ := h
  have hlo : -(23/20) ≤ hitPosOf ball paddle := by
    rw [hitPosOf, le_div_iff₀ (by norm_num : (0:ℝ) < 80/2)]
    linarith
  have hhi : hitPosOf ball paddle ≤ 23/20 := by
    rw [hitPosOf, div_le_iff₀ (by norm_num : (0:ℝ) < 80/2)]
    linarith
  have hvx0 : ball.vx ≠ 0 := by
    cases isLeft with
    | true =>
      rw [if_pos rfl] at hdir
      exact ne_of_lt hdir.2.2
    | false =>
      rw [if_neg (by simp)] at hdir
      exact ne_of_gt hdir.2.2
  have hspos : 0 < min (Real.sqrt (ball.vx ^ 2 + ball.vy ^ 2) * (21/20)) 15 := by
    apply lt_min
    · apply mul_pos _ (by norm_num)
      apply Real.sqrt_pos.mpr
      have : 0 < ball.vx ^ 2 := by positivity
      nlinarith [sq_nonneg ball.vy]
    · norm_num
  have hcpos : 0 < Real.cos (hitPosOf ball paddle * (Real.pi / 3)) := by
    apply Real.cos_pos_of_mem_Ioo
    constructor
    · nlinarith [Real.pi_pos]
    · nlinarith [Real.pi_pos]
  have h' : paddleCollides ball paddle isLeft := ⟨hdir, hv1, hv2⟩
  refine ⟨?_, ?_, ?_, ?_, hlo, hhi, min_le_right _ _, ?_, ?_⟩
  · simp only [checkPaddleCollision, if_pos h']
  · simp only [checkPaddleCollision, if_pos h']
  · simp only [checkPaddleCollision, if_pos h']
  · simp only [checkPaddleCollision, if_pos h']
  · intro hL
    subst hL
    simp only [checkPaddleCollision, if_pos h', if_true]
    nlinarith [mul_pos hspos hcpos]
  · intro hR
    subst hR
    simp only [checkPaddleCollision, if_pos h']
    rw [if_neg Bool.false_ne_true]
    nlinarith [mul_pos hspos hcpos]

/-- Witness for `checkPaddleCollision_spec` at the concrete collision input. -/
theorem checkPaddleCollision_spec_witness :
    (checkPaddleCollision ⟨35, 145, -3, 4⟩ ⟨30, 100⟩ true).y = (145 : ℝ)
    ∧ 0 < (checkPaddleCollision ⟨35, 145, -3, 4⟩ ⟨30, 100⟩ true).vx := by
  have h := checkPaddleCollision_spec ⟨35, 145, -3, 4⟩ ⟨30, 100⟩ true
    (by norm_num [paddleCollides])
  exact ⟨h.2.2.2.1, h.2.2.2.2.2.2.2.1 rfl⟩

-- ===================== recordResult lemmas (C3) =====================

theorem p1_p2_wins_partition (scores : List (Nat × Nat)) :
    p1WinsOf scores + p2WinsOf scores = scores.length := by
  induction scores with
  | nil => rfl
  | cons sc rest ih =>
    simp only [p1WinsOf, p2WinsOf, List.filter] at ih ⊢
    by_cases h : sc.2 < sc.1 <;> simp [h] <;> omega

theorem getSlot_setSlot_self (br : List (List TMatch)) (r i : Nat) (mt : TMatch)
    (hr : r < br.length) (hi : i < (br.getD r []).length) :
    getSlot (setSlot br r i mt) r i = mt := by
  simp only [getSlot, setSlot, List.getD_eq_getElem?_getD]
  rw [List.getElem?_set_self hr]
  simp only [Option.getD_some]
  rw [List.getElem?_set_self (by simpa [List.getD_eq_getElem?_getD] using hi)]
  rfl

theorem getSlot_setSlot_ne (br : List (List TMatch)) (r i : Nat) (mt : TMatch)
    (r' i' : Nat) (h : ¬(r' = r ∧ i' = i)) :
    getSlot (setSlot br r i mt) r' i' = getSlot br r' i' := by
  by_cases hr : r' = r
  · subst hr
    have hii : i' ≠ i := fun hc => h ⟨rfl, hc⟩
    simp only [getSlot, setSlot, List.getD_eq_getElem?_getD]
    by_cases hrl : r' < br.length
    · rw [List.getElem?_set_self hrl]
      simp only [Option.getD_some]
      rw [List.getElem?_set_ne (Ne.symm hii)]
    · rw [List.set_eq_of_length_le (by omega)]
  · simp only [getSlot, setSlot, List.getD_eq_getElem?_getD]
    rw [List.getElem?_set_ne (Ne.symm hr)]

theorem setSlot_length (br : List (List TMatch)) (r i : Nat) (mt : TMatch) :
    (setSlot br r i mt).length = br.length := by
  simp [setSlot]

theorem setSlot_roundLen (br : List (List TMatch)) (r i : Nat) (mt : TMatch) (r' : Nat) :
    ((setSlot br r i mt).getD r' []).length = ((br.getD r' []).length) := by
  by_cases hr : r' = r
  · subst hr
    by_cases hrl : r' < br.length
    · simp only [setSlot, List.getD_eq_getElem?_getD]
      rw [List.getElem?_set_self hrl]
      simp
    · simp only [setSlot]
      rw [List.set_eq_of_length_le (by omega)]
  · simp only [setSlot, List.getD_eq_getElem?_getD]
    rw [List.getElem?_set_ne (Ne.symm hr)]

theorem addPointsTo_self (st : Nat → PStats) (q0 : Nat) (pf pa : Nat) :
    addPointsTo st q0 pf pa q0
      = { st q0 with
          pointsFor := (st q0).pointsFor + pf
          pointsAgainst := (st q0).pointsAgainst + pa } := by
  simp [addPointsTo]

theorem addPointsTo_ne (st : Nat → PStats) (q0 : Nat) (pf pa : Nat) (q : Nat) (h : q ≠ q0) :
    addPointsTo st q0 pf pa q = st q := by
  simp [addPointsTo, h]

theorem addSeriesPoints_spec (a b : Nat) (hab : a ≠ b) :
    ∀ (scores : List (Nat × Nat)) (st : Nat → PStats),
      ((addSeriesPoints a b scores st) a).pointsFor
          = (st a).pointsFor + (scores.map Prod.fst).sum
      ∧ ((addSeriesPoints a b scores st) a).pointsAgainst
          = (st a).pointsAgainst + (scores.map Prod.snd).sum
      ∧ ((addSeriesPoints a b scores st) a).wins = (st a).wins
      ∧ ((addSeriesPoints a b scores st) a).losses = (st a).losses
      ∧ ((addSeriesPoints a b scores st) a).matchesPlayed = (st a).matchesPlayed
      ∧ ((addSeriesPoints a b scores st) b).pointsFor
          = (st b).pointsFor + (scores.map Prod.snd).sum
      ∧ ((addSeriesPoints a b scores st) b).pointsAgainst
          = (st b).pointsAgainst + (scores.map Prod.fst).sum
      ∧ ((addSeriesPoints a b scores st) b).wins = (st b).wins
      ∧ ((addSeriesPoints a b scores st) b).losses = (st b).losses
      ∧ ((addSeriesPoints a b scores st) b).matchesPlayed = (st b).matchesPlayed
      ∧ (∀ q, q ≠ a → q ≠ b → (addSeriesPoints a b scores st) q = st q) := by
  intro scores
  induction scores with
  | nil =>
    intro st
    refine ⟨by simp [addSeriesPoints], by simp [addSeriesPoints], by simp [addSeriesPoints],
      by simp [addSeriesPoints], by simp [addSeriesPoints], by simp [addSeriesPoints],
      by simp [addSeriesPoints], by simp [addSeriesPoints], by simp [addSeriesPoints],
      by simp [addSeriesPoints], fun q _ _ => rfl⟩
  | cons sc rest ih =>
    intro st
    obtain ⟨l, r⟩ := sc
    have ha : (addPointsTo (addPointsTo st a l r) b r l) a
        = { st a with
            pointsFor := (st a).pointsFor + l
            pointsAgainst := (st a).pointsAgainst + r } := by
      rw [addPointsTo_ne _ _ _ _ a hab, addPointsTo_self]
    have hb : (addPointsTo (addPointsTo st a l r) b r l) b
        = { st b with
            pointsFor := (st b).pointsFor + r
            pointsAgainst := (st b).pointsAgainst + l } := by
      rw [addPointsTo_self, addPointsTo_ne _ _ _ _ b (Ne.symm hab)]
    obtain ⟨i1, i2, i3, i4, i5, i6, i7, i8, i9, i10, i11⟩ :=
      ih (addPointsTo (addPointsTo st a l r) b r l)
    simp only [addSeriesPoints]
    rw [ha] at i1 i2 i3 i4 i5
    rw [hb] at i6 i7 i8 i9 i10
    refine ⟨?_, ?_, ?_, ?_, ?_, ?_, ?_, ?_, ?_, ?_, ?_⟩
    · rw [i1]; simp; omega
    · rw [i2]; simp; omega
    · rw [i3]
    · rw [i4]
    · rw [i5]
    · rw [i6]; simp; omega
    · rw [i7]; simp; omega
    · rw [i8]
    · rw [i9]
    · rw [i10]
    · intro q hqa hqb
      rw [i11 q hqa hqb, addPointsTo_ne _ _ _ _ q hqb, addPointsTo_ne _ _ _ _ q hqa]

/-- C3 counterexample: `recordResult` counts every game NOT won by the left
player — ties included — for player 2 (`else p2Wins++`), not only games with
`right > left`. Feeding two 3–3 ties completes a best-of-3 series with
player 2 as winner although no game has `right > left` (the claim's counts
are 0–0, below `winsNeeded = 2`, so by the claim the series must not
complete). -/
theorem recordResult_ties_count_for_player2 :
    winsNeeded 3 = 2
    ∧ (recordResult c3State 0 0 3 3).2 = false
    ∧ (recordResult (recordResult c3State 0 0 3 3).1 0 0 3 3).2 = true
    ∧ (getSlot (recordResult (recordResult c3State 0 0 3 3).1 0 0 3 3).1.bracket 0 0).winner = some 1
    ∧ ((getSlot (recordResult (recordResult c3State 0 0 3 3).1 0 0 3 3).1.bracket 0 0).scores.filter
        (fun sc => decide (sc.1 < sc.2))).length = 0 := by
  refine ⟨rfl, rfl, rfl, rfl, rfl⟩

theorem bumps_eval (st : Nat → PStats) (w l : Nat) (hwl : w ≠ l) :
    ((bumpMatchesPlayed (bumpMatchesPlayed (bumpLosses (bumpWins st w) l) w) l) w).wins
        = (st w).wins + 1
    ∧ ((bumpMatchesPlayed (bumpMatchesPlayed (bumpLosses (bumpWins st w) l) w) l) w).losses
        = (st w).losses
    ∧ ((bumpMatchesPlayed (bumpMatchesPlayed (bumpLosses (bumpWins st w) l) w) l) w).matchesPlayed
        = (st w).matchesPlayed + 1
    ∧ ((bumpMatchesPlayed (bumpMatchesPlayed (bumpLosses (bumpWins st w) l) w) l) w).pointsFor
        = (st w).pointsFor
    ∧ ((bumpMatchesPlayed (bumpMatchesPlayed (bumpLosses (bumpWins st w) l) w) l) w).pointsAgainst
        = (st w).pointsAgainst
    ∧ ((bumpMatchesPlayed (bumpMatchesPlayed (bumpLosses (bumpWins st w) l) w) l) l).wins
        = (st l).wins
    ∧ ((bumpMatchesPlayed (bumpMatchesPlayed (bumpLosses (bumpWins st w) l) w) l) l).losses
        = (st l).losses + 1
    ∧ ((bumpMatchesPlayed (bumpMatchesPlayed (bumpLosses (bumpWins st w) l) w) l) l).matchesPlayed
        = (st l).matchesPlayed + 1
    ∧ ((bumpMatchesPlayed (bumpMatchesPlayed (bumpLosses (bumpWins st w) l) w) l) l).pointsFor
        = (st l).pointsFor
    ∧ ((bumpMatchesPlayed (bumpMatchesPlayed (bumpLosses (bumpWins st w) l) w) l) l).pointsAgainst
        = (st l).pointsAgainst
    ∧ ∀ q, q ≠ w → q ≠ l →
        (bumpMatchesPlayed (bumpMatchesPlayed (bumpLosses (bumpWins st w) l) w) l) q = st q := by
  refine ⟨?_, ?_, ?_, ?_, ?_, ?_, ?_, ?_, ?_, ?_, ?_⟩ <;>
    first
      | (intro q hqw hql
         simp [bumpWins, bumpLosses, bumpMatchesPlayed, hqw, hql])
      | simp [bumpWins, bumpLosses, bumpMatchesPlayed, hwl, Ne.symm hwl]

/-- C3 (amended): for a slot with both players set, `recordResult` appends
the score pair; it counts left-wins as the number of recorded games with
`left > right` and right-wins as all remaining recorded games (`else
p2Wins++` — ties are credited to the right player), the two counts always
partitioning the recorded games; it returns true — setting winner and
completed, and exactly once on this transition adding every recorded game's
points to both players' pointsFor/pointsAgainst and one win, one loss and one
matchesPlayed each — precisely when either count has reached
`ceil(matchesPerPairing/2)`, and otherwise returns false changing no
statistics; other players' statistics never change. With
`matchesPerPairing = 3` (`winsNeeded = 2`), a 2-0 series (two left-won games)
completes at the second game with exactly 2 recorded games. -/
theorem recordResult_spec (s : TState) (r i a b leftScore rightScore : Nat)
    (hr : r < s.bracket.length) (hi : i < (s.bracket.getD r []).length)
    (ha : (getSlot s.bracket r i).player1 = some a)
    (hb : (getSlot s.bracket r i).player2 = some b)
    (hab : a ≠ b) :
    (getSlot (recordResult s r i leftScore rightScore).1.bracket r i).scores
        = (getSlot s.bracket r i).scores ++ [(leftScore, rightScore)]
    ∧ ((recordResult s r i leftScore rightScore).2 = true
        ↔ (winsNeeded s.matchesPerPairing
              ≤ p1WinsOf ((getSlot s.bracket r i).scores ++ [(leftScore, rightScore)])
            ∨ winsNeeded s.matchesPerPairing
              ≤ p2WinsOf ((getSlot s.bracket r i).scores ++ [(leftScore, rightScore)])))
    ∧ p1WinsOf ((getSlot s.bracket r i).scores ++ [(leftScore, rightScore)])
        + p2WinsOf ((getSlot s.bracket r i).scores ++ [(leftScore, rightScore)])
        = ((getSlot s.bracket r i).scores ++ [(leftScore, rightScore)]).length
    ∧ ((recordResult s r i leftScore rightScore).2 = true →
        (getSlot (recordResult s r i leftScore rightScore).1.bracket r i).completed = true
        ∧ (getSlot (recordResult s r i leftScore rightScore).1.bracket r i).winner
            = (if p2WinsOf ((getSlot s.bracket r i).scores ++ [(leftScore, rightScore)])
                  < p1WinsOf ((getSlot s.bracket r i).scores ++ [(leftScore, rightScore)])
                then some a else some b)
        ∧ ((recordResult s r i leftScore rightScore).1.stats a).pointsFor
            = (s.stats a).pointsFor
              + (((getSlot s.bracket r i).scores ++ [(leftScore, rightScore)]).map Prod.fst).sum
        ∧ ((recordResult s r i leftScore rightScore).1.stats a).pointsAgainst
            = (s.stats a).pointsAgainst
              + (((getSlot s.bracket r i).scores ++ [(leftScore, rightScore)]).map Prod.snd).sum
        ∧ ((recordResult s r i leftScore rightScore).1.stats b).pointsFor
            = (s.stats b).pointsFor
              + (((getSlot s.bracket r i).scores ++ [(leftScore, rightScore)]).map Prod.snd).sum
        ∧ ((recordResult s r i leftScore rightScore).1.stats b).pointsAgainst
            = (s.stats b).pointsAgainst
              + (((getSlot s.bracket r i).scores ++ [(leftScore, rightScore)]).map Prod.fst).sum
        ∧ ((recordResult s r i leftScore rightScore).1.stats a).matchesPlayed
            = (s.stats a).matchesPlayed + 1
        ∧ ((recordResult s r i leftScore rightScore).1.stats b).matchesPlayed
            = (s.stats b).matchesPlayed + 1
        ∧ (if p2WinsOf ((getSlot s.bracket r i).scores ++ [(leftScore, rightScore)])
              < p1WinsOf ((getSlot s.bracket r i).scores ++ [(leftScore, rightScore)])
            then ((recordResult s r i leftScore rightScore).1.stats a).wins = (s.stats a).wins + 1
              ∧ ((recordResult s r i leftScore rightScore).1.stats b).losses = (s.stats b).losses + 1
              ∧ ((recordResult s r i leftScore rightScore).1.stats a).losses = (s.stats a).losses
              ∧ ((recordResult s r i leftScore rightScore).1.stats b).wins = (s.stats b).wins
            else ((recordResult s r i leftScore rightScore).1.stats b).wins = (s.stats b).wins + 1
              ∧ ((recordResult s r i leftScore rightScore).1.stats a).losses = (s.stats a).losses + 1
              ∧ ((recordResult s r i leftScore rightScore).1.stats b).losses = (s.stats b).losses
              ∧ ((recordResult s r i leftScore rightScore).1.stats a).wins = (s.stats a).wins))
    ∧ ((recordResult s r i leftScore rightScore).2 = false →
        (recordResult s r i leftScore rightScore).1.stats = s.stats
        ∧ (getSlot (recordResult s r i leftScore rightScore).1.bracket r i).completed
            = (getSlot s.bracket r i).completed
        ∧ (getSlot (recordResult s r i leftScore rightScore).1.bracket r i).winner
            = (getSlot s.bracket r i).winner)
    ∧ (∀ q, q ≠ a → q ≠ b →
        (recordResult s r i leftScore rightScore).1.stats q = s.stats q)
    ∧ (winsNeeded 3 = 2
        ∧ (recordResult c3State 0 0 5 2).2 = false
        ∧ (recordResult (recordResult c3State 0 0 5 2).1 0 0 5 3).2 = true
        ∧ (getSlot (recordResult (recordResult c3State 0 0 5 2).1 0 0 5 3).1.bracket 0 0).scores.length
            = 2) := by
  rcases hmt : getSlot s.bracket r i with ⟨p1, p2, w0, sc0, c0⟩
  rw [hmt] at ha hb
  simp only [TMatch.player1] at ha
  simp only [TMatch.player2] at hb
  subst ha
  subst hb
  simp only [recordResult, hmt]
  by_cases hdone : winsNeeded s.matchesPerPairing ≤ p1WinsOf (sc0 ++ [(leftScore, rightScore)])
      ∨ winsNeeded s.matchesPerPairing ≤ p2WinsOf (sc0 ++ [(leftScore, rightScore)])
  · rw [if_pos hdone]
    simp only []
    by_cases hwl : p2WinsOf (sc0 ++ [(leftScore, rightScore)])
        < p1WinsOf (sc0 ++ [(leftScore, rightScore)])
    · -- player1 wins
      simp only [hwl, if_true, if_pos hwl]
      have hslot := getSlot_setSlot_self s.bracket r i
        { player1 := some a
          player2 := some b
          winner := some a
          scores := sc0 ++ [(leftScore, rightScore)]
          completed := true } hr hi
      obtain ⟨e1, e2, e3, e4, e5, e6, e7, e8, e9, e10, e11⟩ :=
        addSeriesPoints_spec a b hab (sc0 ++ [(leftScore, rightScore)])
          (bumpMatchesPlayed (bumpMatchesPlayed (bumpLosses (bumpWins s.stats a) b) a) b)
      obtain ⟨f1, f2, f3, f4, f5, f6, f7, f8, f9, f10, f11⟩ := bumps_eval s.stats a b hab
      refine ⟨?_, ?_, p1_p2_wins_partition _, ?_, ?_, ?_, ?_⟩
      · rw [hslot]
      · simp [hdone]
      · intro _
        refine ⟨by rw [hslot], by rw [hslot], ?_, ?_, ?_, ?_, ?_, ?_, ?_⟩
        · simp only [applyMatchStats]
          rw [e1, f4]
        · simp only [applyMatchStats]
          rw [e2, f5]
        · simp only [applyMatchStats]
          rw [e6, f9]
        · simp only [applyMatchStats]
          rw [e7, f10]
        · simp only [applyMatchStats]
          rw [e5, f3]
        · simp only [applyMatchStats]
          rw [e10, f8]
        · simp only [if_pos hwl, applyMatchStats]
          exact ⟨by rw [e3, f1], by rw [e9, f7], by rw [e4, f2], by rw [e8, f6]⟩
      · intro hcontra
        simp at hcontra
      · intro q hqa hqb
        simp only [applyMatchStats]
        rw [e11 q hqa hqb, f11 q hqa hqb]
      · exact ⟨rfl, rfl, rfl, rfl⟩
    · -- player2 wins
      simp only [hwl, if_false, if_neg hwl]
      have hslot := getSlot_setSlot_self s.bracket r i
        { player1 := some a
          player2 := some b
          winner := some b
          scores := sc0 ++ [(leftScore, rightScore)]
          completed := true } hr hi
      obtain ⟨e1, e2, e3, e4, e5, e6, e7, e8, e9, e10, e11⟩ :=
        addSeriesPoints_spec a b hab (sc0 ++ [(leftScore, rightScore)])
          (bumpMatchesPlayed (bumpMatchesPlayed (bumpLosses (bumpWins s.stats b) a) b) a)
      obtain ⟨f1, f2, f3, f4, f5, f6, f7, f8, f9, f10, f11⟩ := bumps_eval s.stats b a (Ne.symm hab)
      refine ⟨?_, ?_, p1_p2_wins_partition _, ?_, ?_, ?_, ?_⟩
      · rw [hslot]
      · simp [hdone]
      · intro _
        refine ⟨by rw [hslot], by rw [hslot], ?_, ?_, ?_, ?_, ?_, ?_, ?_⟩
        · simp only [applyMatchStats]
          rw [e1, f9]
        · simp only [applyMatchStats]
          rw [e2, f10]
        · simp only [applyMatchStats]
          rw [e6, f4]
        · simp only [applyMatchStats]
          rw [e7, f5]
        · simp only [applyMatchStats]
          rw [e5, f8]
        · simp only [applyMatchStats]
          rw [e10, f3]
        · simp only [if_neg hwl, applyMatchStats]
          exact ⟨by rw [e8, f1], by rw [e4, f7], by rw [e9, f2], by rw [e3, f6]⟩
      · intro hcontra
        simp at hcontra
      · intro q hqa hqb
        simp only [applyMatchStats]
        rw [e11 q hqa hqb, f11 q hqb hqa]
      · exact ⟨rfl, rfl, rfl, rfl⟩
  · rw [if_neg hdone]
    simp only []
    have hslot := getSlot_setSlot_self s.bracket r i
      { player1 := some a, player2 := some b, winner := w0
        scores := sc0 ++ [(leftScore, rightScore)], completed := c0 } hr hi
    refine ⟨by rw [hslot], by simp [hdone], p1_p2_wins_partition _, ?_, ?_, fun q _ _ => trivial,
      rfl, rfl, rfl, rfl⟩
    · intro hcontra
      simp at hcontra
    · intro _
      exact ⟨trivial, by rw [hslot], by rw [hslot]⟩

/-- Witness for `recordResult_spec` on the concrete one-slot state. -/
theorem recordResult_spec_witness :
    (getSlot (recordResult c3State 0 0 5 2).1.bracket 0 0).scores
        = (getSlot c3State.bracket 0 0).scores ++ [(5, 2)]
    ∧ ((recordResult c3State 0 0 5 2).2 = true
        ↔ (winsNeeded c3State.matchesPerPairing
              ≤ p1WinsOf ((getSlot c3State.bracket 0 0).scores ++ [(5, 2)])
            ∨ winsNeeded c3State.matchesPerPairing
              ≤ p2WinsOf ((getSlot c3State.bracket 0 0).scores ++ [(5, 2)]))) := by
  have h := recordResult_spec c3State 0 0 0 1 5 2 (by decide) (by decide) rfl rfl (by decide)
  exact ⟨h.1, h.2.1⟩

theorem halveUp_iter (k n : Nat) (hn : 1 ≤ n) :
    halveUp^[k] n = (n - 1) / 2 ^ k + 1 := by
  induction k with
  | zero => simp; omega
  | succ k ih =>
    rw [Function.iterate_succ_apply', ih, halveUp]
    rw [show (n - 1) / 2 ^ k + 1 + 1 = (n - 1) / 2 ^ k + 2 by omega]
    rw [Nat.add_div_right _ (by norm_num), Nat.div_div_eq_div_mul, pow_succ]

theorem mkFirstRound_length (l : List Nat) : (mkFirstRound l).length = halveUp l.length := by
  induction l using mkFirstRound.induct with
  | case1 => simp [mkFirstRound, halveUp]
  | case2 p => simp [mkFirstRound, halveUp]
  | case3 p q rest ih =>
    simp only [mkFirstRound, List.length_cons, ih, halveUp]
    omega

theorem mkFirstRound_slots (l : List Nat) :
    ∀ mt ∈ mkFirstRound l,
      mt.scores = [] ∧ mt.player1.isSome = true
      ∧ (mt.completed = true → mt.winner.isSome = true)
      ∧ (mt.completed = false → mt.winner = none) := by
  induction l using mkFirstRound.induct with
  | case1 => intro mt hmt; simp [mkFirstRound] at hmt
  | case2 p =>
    intro mt hmt
    simp only [mkFirstRound, List.mem_singleton] at hmt
    subst hmt
    refine ⟨rfl, rfl, fun _ => rfl, fun hc => by simp at hc⟩
  | case3 p q rest ih =>
    intro mt hmt
    rcases List.mem_cons.mp hmt with rfl | hmt
    · refine ⟨rfl, rfl, fun hc => by simp at hc, fun _ => rfl⟩
    · exact ih mt hmt

theorem mkEmptyRounds_length (m k : Nat) : (mkEmptyRounds m k).length = k := by
  induction k generalizing m with
  | zero => rfl
  | succ k ih => simp [mkEmptyRounds, ih]

theorem mkEmptyRounds_getD (k : Nat) :
    ∀ (m j : Nat), j < k →
      (mkEmptyRounds m k).getD j [] = List.replicate (halveUp^[j] m) emptyTMatch := by
  induction k with
  | zero => intro m j hj; omega
  | succ k ih =>
    intro m j hj
    cases j with
    | zero => simp [mkEmptyRounds]
    | succ j =>
      simp only [mkEmptyRounds, List.getD_cons_succ]
      rw [ih ((m + 1) / 2) j (by omega), Function.iterate_succ_apply]
      rfl

/-- Round `r` of the generated bracket has exactly `halveUp^[r+1] n` slots. -/
theorem generateBracket_roundLen (players : List Nat) (mpp : Nat) (st0 : Nat → PStats)
    (r : Nat) (hr : r < (generateBracket players mpp st0).bracket.length) :
    ((generateBracket players mpp st0).bracket.getD r []).length
      = halveUp^[r + 1] players.length := by
  cases r with
  | zero =>
    simp only [generateBracket, List.getD_cons_zero]
    rw [mkFirstRound_length, Function.iterate_one]
  | succ r =>
    simp only [generateBracket, List.getD_cons_succ]
    simp only [generateBracket, List.length_cons, mkEmptyRounds_length] at hr
    rw [mkEmptyRounds_getD _ _ _ (by omega), List.length_replicate, mkFirstRound_length]
    have h2 : (halveUp players.length + 1) / 2 = halveUp^[2] players.length := by
      rw [show (2:Nat) = 1 + 1 from rfl, Function.iterate_add_apply]
      simp [halveUp]
    rw [h2, ← Function.iterate_add_apply]

theorem generateBracket_length (players : List Nat) (mpp : Nat) (st0 : Nat → PStats)
    (hN : 2 ≤ players.length) :
    (generateBracket players mpp st0).bracket.length = Nat.clog 2 players.length := by
  simp only [generateBracket, List.length_cons, mkEmptyRounds_length]
  have : 0 < Nat.clog 2 players.length := Nat.clog_pos (by norm_num) (by omega)
  omega

theorem generateBracket_lastLen (players : List Nat) (mpp : Nat) (st0 : Nat → PStats)
    (hN : 2 ≤ players.length) :
    ((generateBracket players mpp st0).bracket.getD
        ((generateBracket players mpp st0).bracket.length - 1) []).length = 1 := by
  have hlen := generateBracket_length players mpp st0 hN
  have hR : 0 < Nat.clog 2 players.length := Nat.clog_pos (by norm_num) (by omega)
  rw [generateBracket_roundLen players mpp st0 _ (by omega)]
  rw [hlen]
  rw [show Nat.clog 2 players.length - 1 + 1 = Nat.clog 2 players.length by omega]
  rw [halveUp_iter _ _ (by omega)]
  have hle : players.length ≤ 2 ^ Nat.clog 2 players.length :=
    Nat.le_pow_clog (by norm_num) _
  have : (players.length - 1) / 2 ^ Nat.clog 2 players.length = 0 :=
    Nat.div_eq_of_lt (by omega)
  omega

theorem SlotsMono_refl (br : List (List TMatch)) : SlotsMono br br :=
  fun _ _ _ _ => ⟨fun h => h, fun _ h => h, fun _ h => h⟩

theorem SlotsMono_trans {br1 br2 br3 : List (List TMatch)}
    (hlen : br1.length = br2.length)
    (hrow : ∀ r, (br1.getD r []).length = (br2.getD r []).length)
    (h12 : SlotsMono br1 br2) (h23 : SlotsMono br2 br3) : SlotsMono br1 br3 := by
  intro r m hr hm
  obtain ⟨a1, a2, a3⟩ := h12 r m hr hm
  obtain ⟨b1, b2, b3⟩ := h23 r m (by omega) (by rw [← hrow r]; exact hm)
  exact ⟨fun h => b1 (a1 h), fun x h => b2 x (a2 x h), fun x h => b3 x (a3 x h)⟩

theorem hasTwoPlayerSlotWith_mono {br br' : List (List TMatch)}
    (hlen : br.length = br'.length)
    (hrow : ∀ r, (br.getD r []).length = (br'.getD r []).length)
    (hmono : SlotsMono br br') {q : Nat}
    (h : hasTwoPlayerSlotWith br q) : hasTwoPlayerSlotWith br' q := by
  obtain ⟨r, i, hr, hi, h1, h2, hq⟩ := h
  obtain ⟨m1, m2, m3⟩ := hmono r i hr hi
  obtain ⟨x1, hx1⟩ := Option.isSome_iff_exists.mp h1
  obtain ⟨x2, hx2⟩ := Option.isSome_iff_exists.mp h2
  refine ⟨r, i, by omega, by rw [← hrow r]; exact hi, ?_, ?_, ?_⟩
  · rw [m2 x1 hx1]; rfl
  · rw [m3 x2 hx2]; rfl
  · rcases hq with hq | hq
    · exact Or.inl (by rw [hx1] at hq; rw [m2 x1 hx1]; exact hq)
    · exact Or.inr (by rw [hx2] at hq; rw [m3 x2 hx2]; exact hq)

-- ===================== updateBracketPlayers lemmas =====================

theorem updateSlot_scores (prev : List TMatch) (m : Nat) (mt : TMatch) :
    (updateSlot prev m mt).scores = mt.scores := by
  simp only [updateSlot]
  repeat' split
  all_goals rfl

theorem updateSlot_completed_mono (prev : List TMatch) (m : Nat) (mt : TMatch)
    (h : mt.completed = true) : (updateSlot prev m mt).completed = true := by
  simp only [updateSlot]
  repeat' split
  all_goals first | rfl | exact h

theorem updateSlot_p1_mono (prev : List TMatch) (m : Nat) (mt : TMatch)
    (x : Nat) (h : mt.player1 = some x) : (updateSlot prev m mt).player1 = some x := by
  simp only [updateSlot]
  repeat' split
  all_goals simp_all

theorem updateSlot_p2_mono (prev : List TMatch) (m : Nat) (mt : TMatch)
    (x : Nat) (h : mt.player2 = some x) : (updateSlot prev m mt).player2 = some x := by
  simp only [updateSlot]
  repeat' split
  all_goals simp_all

theorem updateSlot_p2_none (prev : List TMatch) (m : Nat) (mt : TMatch)
    (h : (updateSlot prev m mt).player2 = none) : mt.player2 = none := by
  by_cases h2 : mt.player2 = none
  · exact h2
  · obtain ⟨x, hx⟩ := Option.ne_none_iff_exists'.mp h2
    rw [updateSlot_p2_mono prev m mt x hx] at h
    simp at h

theorem updateSlot_p1_none (prev : List TMatch) (m : Nat) (mt : TMatch)
    (h : (updateSlot prev m mt).player1 = none) : mt.player1 = none := by
  by_cases h2 : mt.player1 = none
  · exact h2
  · obtain ⟨x, hx⟩ := Option.ne_none_iff_exists'.mp h2
    rw [updateSlot_p1_mono prev m mt x hx] at h
    simp at h

theorem updateSlot_new_completed (prev : List TMatch) (m : Nat) (mt : TMatch)
    (h : (updateSlot prev m mt).completed = true) :
    mt.completed = true ∨ (updateSlot prev m mt).player2 = none := by
  revert h
  simp only [updateSlot]
  repeat' split
  all_goals intro h
  all_goals simp_all

theorem updateSlot_winner (prev : List TMatch) (m : Nat) (mt : TMatch)
    (hmt : mt.completed = true → mt.winner.isSome = true)
    (h : (updateSlot prev m mt).completed = true) :
    (updateSlot prev m mt).winner.isSome = true := by
  revert h
  simp only [updateSlot]
  repeat' split
  all_goals intro h
  all_goals simp_all

theorem updateSlot_player1_eq (prev : List TMatch) (m : Nat) (mt : TMatch) :
    (updateSlot prev m mt).player1
      = (match prev[2 * m]? with
         | some sm => if (sm.completed && mt.player1.isNone) = true then sm.winner else mt.player1
         | none => mt.player1) := by
  simp only [updateSlot]
  repeat' split
  all_goals simp_all

theorem updateSlot_player2_eq (prev : List TMatch) (m : Nat) (mt : TMatch) :
    (updateSlot prev m mt).player2
      = (match prev[2 * m + 1]? with
         | some sm => if (sm.completed && mt.player2.isNone) = true then sm.winner else mt.player2
         | none => mt.player2) := by
  simp only [updateSlot]
  repeat' split
  all_goals simp_all

theorem updateSlot_ready (prev : List TMatch) (m : Nat) (mt : TMatch)
    (hlen : 2 * m < prev.length)
    (hprev : ∀ k, k < prev.length →
      (prev.getD k default).completed = true ∧ (prev.getD k default).winner.isSome = true) :
    (updateSlot prev m mt).player1.isSome = true
    ∧ ((updateSlot prev m mt).player2.isSome = true
        ∨ (updateSlot prev m mt).completed = true) := by
  have hs1 : prev[2 * m]? = some (prev.getD (2 * m) default) := by
    rw [List.getD_eq_getElem?_getD, List.getElem?_eq_getElem hlen]
    rfl
  obtain ⟨hc1, hw1⟩ := hprev (2 * m) hlen
  have hp1out : (updateSlot prev m mt).player1.isSome = true := by
    rw [updateSlot_player1_eq, hs1]
    rcases hp1 : mt.player1 with _ | x
    · simp_all
    · simp
  refine ⟨hp1out, ?_⟩
  rcases hp2 : mt.player2 with _ | y
  · by_cases hlen2 : 2 * m + 1 < prev.length
    · left
      have hs2 : prev[2 * m + 1]? = some (prev.getD (2 * m + 1) default) := by
        rw [List.getD_eq_getElem?_getD, List.getElem?_eq_getElem hlen2]
        rfl
      obtain ⟨hc2, hw2⟩ := hprev (2 * m + 1) hlen2
      rw [updateSlot_player2_eq, hs2]
      simp_all
    · right
      have hs2 : prev[2 * m + 1]? = none := by
        rw [List.getElem?_eq_none]
        omega
      have hp2out : (updateSlot prev m mt).player2 = none := by
        rw [updateSlot_player2_eq, hs2, hp2]
      revert hp1out hp2out
      simp only [updateSlot, hs2]
      repeat' split
      all_goals intro h1 h2
      all_goals simp_all
  · left
    rw [updateSlot_p2_mono prev m mt y hp2]
    rfl

theorem updateRoundGo_length (prev : List TMatch) :
    ∀ (k : Nat) (l : List TMatch), (updateRoundGo prev k l).length = l.length := by
  intro k l
  induction l generalizing k with
  | nil => rfl
  | cons mt rest ih => simp [updateRoundGo, ih]

theorem updateRoundGo_getD (prev : List TMatch) :
    ∀ (l : List TMatch) (k j : Nat), j < l.length →
      (updateRoundGo prev k l).getD j default = updateSlot prev (k + j) (l.getD j default) := by
  intro l
  induction l with
  | nil => intro k j hj; simp at hj
  | cons mt rest ih =>
    intro k j hj
    cases j with
    | zero => simp [updateRoundGo]
    | succ j =>
      simp only [updateRoundGo, List.getD_cons_succ]
      rw [ih (k + 1) j (by simpa using hj)]
      congr 1
      omega

theorem updateRound_length (prev cur : List TMatch) :
    (updateRound prev cur).length = cur.length := updateRoundGo_length prev 0 cur

theorem updateRound_getD (prev cur : List TMatch) (j : Nat) (hj : j < cur.length) :
    (updateRound prev cur).getD j default = updateSlot prev j (cur.getD j default) := by
  rw [updateRound, updateRoundGo_getD prev cur 0 j hj]
  congr 1
  omega

theorem updateRounds_length (rest : List (List TMatch)) :
    ∀ prev, (updateRounds prev rest).length = rest.length := by
  induction rest with
  | nil => intro prev; rfl
  | cons c rs ih => intro prev; simp [updateRounds, ih]

theorem updateRounds_roundLen (rest : List (List TMatch)) :
    ∀ prev r, ((updateRounds prev rest).getD r []).length = (rest.getD r []).length := by
  induction rest with
  | nil => intro prev r; rfl
  | cons c rs ih =>
    intro prev r
    cases r with
    | zero => simp [updateRounds, updateRound_length]
    | succ r =>
      simp only [updateRounds, List.getD_cons_succ]
      exact ih (updateRound prev c) r

theorem updateRounds_getD (rest : List (List TMatch)) :
    ∀ (prev : List TMatch) (j : Nat), j < rest.length →
      (updateRounds prev rest).getD j []
        = updateRound (if j = 0 then prev else (updateRounds prev rest).getD (j - 1) [])
            (rest.getD j []) := by
  induction rest with
  | nil => intro prev j hj; simp at hj
  | cons c rs ih =>
    intro prev j hj
    cases j with
    | zero => simp [updateRounds]
    | succ j =>
      simp only [updateRounds, List.getD_cons_succ]
      rw [ih (updateRound prev c) j (by simpa using hj)]
      cases j with
      | zero => simp [updateRounds]
      | succ j => simp [updateRounds]

theorem updateBracketPlayers_length (br : List (List TMatch)) :
    (updateBracketPlayers br).length = br.length := by
  cases br with
  | nil => rfl
  | cons r0 rest => simp [updateBracketPlayers, updateRounds_length]

theorem updateBracketPlayers_roundLen (br : List (List TMatch)) (r : Nat) :
    ((updateBracketPlayers br).getD r []).length = (br.getD r []).length := by
  cases br with
  | nil => rfl
  | cons r0 rest =>
    cases r with
    | zero => rfl
    | succ r =>
      simp only [updateBracketPlayers, List.getD_cons_succ]
      exact updateRounds_roundLen rest r0 r

theorem updateBracketPlayers_getD_zero (br : List (List TMatch)) :
    (updateBracketPlayers br).getD 0 [] = br.getD 0 [] := by
  cases br with
  | nil => rfl
  | cons r0 rest => rfl

theorem updateBracketPlayers_getD_succ (br : List (List TMatch)) (r : Nat)
    (hr : r + 1 < br.length) :
    (updateBracketPlayers br).getD (r + 1) []
      = updateRound ((updateBracketPlayers br).getD r []) (br.getD (r + 1) []) := by
  cases br with
  | nil => simp at hr
  | cons r0 rest =>
    simp only [updateBracketPlayers, List.getD_cons_succ]
    rw [updateRounds_getD rest r0 r (by simpa using hr)]
    cases r with
    | zero => simp
    | succ r => simp [updateBracketPlayers]

theorem getSlot_updateBracketPlayers_zero (br : List (List TMatch)) (m : Nat) :
    getSlot (updateBracketPlayers br) 0 m = getSlot br 0 m := by
  simp only [getSlot]
  rw [updateBracketPlayers_getD_zero]

theorem getSlot_updateBracketPlayers_succ (br : List (List TMatch)) (r m : Nat)
    (hr : r + 1 < br.length) (hm : m < (br.getD (r + 1) []).length) :
    getSlot (updateBracketPlayers br) (r + 1) m
      = updateSlot ((updateBracketPlayers br).getD r []) m (getSlot br (r + 1) m) := by
  simp only [getSlot]
  rw [updateBracketPlayers_getD_succ br r hr, updateRound_getD _ _ m hm]

theorem UBP_slot_facts (br : List (List TMatch)) (r m : Nat)
    (hr : r < br.length) (hm : m < (br.getD r []).length) :
    (getSlot (updateBracketPlayers br) r m).scores = (getSlot br r m).scores
    ∧ ((getSlot br r m).completed = true → (getSlot (updateBracketPlayers br) r m).completed = true)
    ∧ (∀ x, (getSlot br r m).player1 = some x → (getSlot (updateBracketPlayers br) r m).player1 = some x)
    ∧ (∀ x, (getSlot br r m).player2 = some x → (getSlot (updateBracketPlayers br) r m).player2 = some x)
    ∧ ((getSlot (updateBracketPlayers br) r m).player2 = none → (getSlot br r m).player2 = none)
    ∧ ((getSlot (updateBracketPlayers br) r m).completed = true →
        (getSlot br r m).completed = true ∨ (getSlot (updateBracketPlayers br) r m).player2 = none)
    ∧ (((getSlot br r m).completed = true → (getSlot br r m).winner.isSome = true) →
        (getSlot (updateBracketPlayers br) r m).completed = true →
        (getSlot (updateBracketPlayers br) r m).winner.isSome = true) := by
  cases r with
  | zero =>
    rw [getSlot_updateBracketPlayers_zero]
    exact ⟨rfl, fun h => h, fun _ h => h, fun _ h => h, fun h => h, fun h => Or.inl h,
      fun hw h => hw h⟩
  | succ r =>
    rw [getSlot_updateBracketPlayers_succ br r m hr hm]
    exact ⟨updateSlot_scores _ _ _, updateSlot_completed_mono _ _ _,
      updateSlot_p1_mono _ _ _, updateSlot_p2_mono _ _ _, updateSlot_p2_none _ _ _,
      updateSlot_new_completed _ _ _, updateSlot_winner _ _ _⟩

theorem UBP_SlotsMono (br : List (List TMatch)) : SlotsMono br (updateBracketPlayers br) := by
  intro r m hr hm
  obtain ⟨_, h2, h3, h4, _, _, _⟩ := UBP_slot_facts br r m hr hm
  exact ⟨h2, h3, h4⟩

theorem UBP_WinnersSet (br : List (List TMatch)) (h : WinnersSet br) :
    WinnersSet (updateBracketPlayers br) := by
  intro r m hr hm hc
  rw [updateBracketPlayers_length] at hr
  rw [updateBracketPlayers_roundLen] at hm
  exact (UBP_slot_facts br r m hr hm).2.2.2.2.2.2 (h r m hr hm) hc

theorem UBP_ByesBlank (br : List (List TMatch)) (h : ByesBlank br) :
    ByesBlank (updateBracketPlayers br) := by
  intro r m hr hm hp2
  rw [updateBracketPlayers_length] at hr
  rw [updateBracketPlayers_roundLen] at hm
  obtain ⟨hsc, _, _, _, hback, _, _⟩ := UBP_slot_facts br r m hr hm
  rw [hsc]
  exact h r m hr hm (hback hp2)

theorem UBP_Round0Players (br : List (List TMatch)) (h : Round0Players br) :
    Round0Players (updateBracketPlayers br) := by
  intro m hm
  rw [updateBracketPlayers_roundLen] at hm
  rw [getSlot_updateBracketPlayers_zero]
  exact h m hm

theorem UBP_ShapeChain (br : List (List TMatch)) (h : ShapeChain br) :
    ShapeChain (updateBracketPlayers br) := by
  obtain ⟨h1, h2, h3⟩ := h
  refine ⟨by rw [updateBracketPlayers_length]; exact h1, ?_, ?_⟩
  · intro r hr
    rw [updateBracketPlayers_length] at hr
    rw [updateBracketPlayers_roundLen, updateBracketPlayers_roundLen]
    exact h2 r hr
  · rw [updateBracketPlayers_length, updateBracketPlayers_roundLen]
    exact h3

theorem UBP_ready (br : List (List TMatch)) (hshape : ShapeChain br) (hwin : WinnersSet br)
    (r : Nat) (hr0 : 0 < r) (hr : r < br.length)
    (hbelow : ∀ r' m, r' < r → m < (br.getD r' []).length → (getSlot br r' m).completed = true) :
    ∀ m, m < (br.getD r []).length →
      (getSlot (updateBracketPlayers br) r m).player1.isSome = true
      ∧ ((getSlot (updateBracketPlayers br) r m).player2.isSome = true
          ∨ (getSlot (updateBracketPlayers br) r m).completed = true) := by
  intro m hm
  obtain ⟨r', rfl⟩ : ∃ r', r = r' + 1 := ⟨r - 1, by omega⟩
  rw [getSlot_updateBracketPlayers_succ br r' m hr hm]
  apply updateSlot_ready
  · -- index bound from the halving shape
    rw [updateBracketPlayers_roundLen]
    have hlen := hshape.2.1 r' hr
    rw [hlen] at hm
    simp only [halveUp] at hm
    omega
  · -- the previous round of the updated bracket is fully completed with winners
    intro k hk
    rw [updateBracketPlayers_roundLen] at hk
    have hck : (getSlot br r' k).completed = true := hbelow r' k (by omega) hk
    obtain ⟨_, hcm, _, _, _, _, _⟩ := UBP_slot_facts br r' k (by omega) hk
    have hcomp : (getSlot (updateBracketPlayers br) r' k).completed = true := hcm hck
    refine ⟨hcomp, ?_⟩
    have := UBP_WinnersSet br hwin r' k
      (by rw [updateBracketPlayers_length]; omega)
      (by rw [updateBracketPlayers_roundLen]; exact hk) hcomp
    exact this

-- ===================== scan measure lemmas =====================

theorem dropSum_step (br : List (List TMatch)) (k : Nat) (hk : k < br.length) :
    ((br.drop k).map List.length).sum
      = (br.getD k []).length + ((br.drop (k + 1)).map List.length).sum := by
  rw [List.drop_eq_getElem_cons hk]
  simp only [List.map_cons, List.sum_cons, List.getD_eq_getElem?_getD,
    List.getElem?_eq_getElem hk]
  rfl

theorem dropSum_nil (br : List (List TMatch)) (k : Nat) (hk : br.length ≤ k) :
    ((br.drop k).map List.length).sum = 0 := by
  rw [List.drop_eq_nil_of_le hk]
  rfl

theorem dropSum_congr (br br' : List (List TMatch)) (hlen : br'.length = br.length)
    (hrl : ∀ r, (br'.getD r []).length = (br.getD r []).length) :
    ∀ (n k : Nat), br.length - k = n →
      ((br'.drop k).map List.length).sum = ((br.drop k).map List.length).sum := by
  intro n
  induction n with
  | zero =>
    intro k hkn
    rw [dropSum_nil br k (by omega), dropSum_nil br' k (by omega)]
  | succ n ih =>
    intro k hkn
    rw [dropSum_step br k (by omega), dropSum_step br' k (by omega), hrl k,
      ih (k + 1) (by omega)]

theorem scanMeasure_incMatch (s s' : TState)
    (hM : s.currentMatch < (s.bracket.getD s.currentRound []).length)
    (hlen : s'.bracket.length = s.bracket.length)
    (hrl : ∀ r, (s'.bracket.getD r []).length = (s.bracket.getD r []).length)
    (hcr : s'.currentRound = s.currentRound) (hcm : s'.currentMatch = s.currentMatch + 1) :
    scanMeasure s' < scanMeasure s := by
  simp only [scanMeasure, hcr, hcm]
  rw [dropSum_congr s.bracket s'.bracket hlen hrl (s.bracket.length - (s.currentRound + 1)) _ rfl]
  rw [hrl, hlen]
  omega

theorem scanMeasure_incRound (s : TState)
    (hR : s.currentRound < s.bracket.length)
    (hM : ¬ s.currentMatch < (s.bracket.getD s.currentRound []).length) :
    scanMeasure { s with currentRound := s.currentRound + 1, currentMatch := 0 }
      < scanMeasure s := by
  simp only [scanMeasure]
  by_cases hr1 : s.currentRound + 1 < s.bracket.length
  · rw [dropSum_step s.bracket (s.currentRound + 1) hr1]
    omega
  · rw [dropSum_nil s.bracket (s.currentRound + 1) (by omega),
      dropSum_nil s.bracket (s.currentRound + 2) (by omega)]
    have : (s.bracket.getD (s.currentRound + 1) []).length = 0 := by
      rw [List.getD_eq_getElem?_getD, List.getElem?_eq_none (by omega)]
      rfl
    omega

theorem scanMeasure_lt_bound (s : TState) : scanMeasure s < bracketScanBound s := by
  simp only [scanMeasure, bracketScanBound]
  by_cases hr : s.currentRound < s.bracket.length
  · have h1 : ((s.bracket.drop (s.currentRound + 1)).map List.length).sum
        + (s.bracket.getD s.currentRound []).length
        ≤ (s.bracket.map List.length).sum := by
      have h2 : ((s.bracket.drop s.currentRound).map List.length).sum
          ≤ (s.bracket.map List.length).sum :=
        List.Sublist.sum_le_sum
          ((List.drop_sublist s.currentRound s.bracket).map List.length)
          (fun a _ => Nat.zero_le a)
      rw [dropSum_step s.bracket s.currentRound hr] at h2
      omega
    omega
  · rw [dropSum_nil s.bracket (s.currentRound + 1) (by omega)]
    have : (s.bracket.getD s.currentRound []).length = 0 := by
      rw [List.getD_eq_getElem?_getD, List.getElem?_eq_none (by omega)]
      rfl
    omega

theorem GNMPost_comp (s s1 : TState) (out : TState × Option (Nat × Nat))
    (hlen : s1.bracket.length = s.bracket.length)
    (hrow : ∀ r, (s1.bracket.getD r []).length = (s.bracket.getD r []).length)
    (hmono : SlotsMono s.bracket s1.bracket)
    (hsc : ∀ r m, r < s.bracket.length → m < (s.bracket.getD r []).length →
      (getSlot s1.bracket r m).scores = (getSlot s.bracket r m).scores)
    (hst : s1.stats = s.stats) (hmpp : s1.matchesPerPairing = s.matchesPerPairing)
    (hres : s1.results = s.results)
    (h : GNMPost s1 out) : GNMPost s out := by
  obtain ⟨hI, hL, hR, hM, hS, hst1, hmpp1, hres1, hout⟩ := h
  refine ⟨hI, by omega, fun r => by rw [hR r, hrow r], ?_, ?_, by rw [hst1, hst],
    by rw [hmpp1, hmpp], by rw [hres1, hres], ?_⟩
  · exact SlotsMono_trans (by omega) (fun r => (hrow r).symm) hmono hM
  · intro r m hr hm
    rw [hS r m (by omega) (by rw [hrow r]; exact hm), hsc r m hr hm]
  · exact hout

theorem getNextMatchGo_stop (fuel : Nat) (s : TState)
    (hR : ¬ s.currentRound < s.bracket.length) :
    getNextMatchGo (fuel + 1) s = (s, none) := by
  simp only [getNextMatchGo]
  rw [if_neg hR]

theorem getNextMatchGo_row (fuel : Nat) (s : TState)
    (hR : s.currentRound < s.bracket.length)
    (hM : ¬ s.currentMatch < (s.bracket.getD s.currentRound []).length) :
    getNextMatchGo (fuel + 1) s
      = getNextMatchGo fuel { s with currentRound := s.currentRound + 1, currentMatch := 0 } := by
  simp only [getNextMatchGo]
  rw [if_pos hR, if_neg hM]

theorem getNextMatchGo_skip_completed (fuel : Nat) (s : TState)
    (hR : s.currentRound < s.bracket.length)
    (hM : s.currentMatch < (s.bracket.getD s.currentRound []).length)
    (hc : (getSlot s.bracket s.currentRound s.currentMatch).completed = true) :
    getNextMatchGo (fuel + 1) s
      = getNextMatchGo fuel { s with currentMatch := s.currentMatch + 1 } := by
  simp only [getNextMatchGo]
  rw [if_pos hR, if_pos hM, if_pos hc]

theorem getNextMatchGo_upd_skip (fuel : Nat) (s : TState)
    (hR : s.currentRound < s.bracket.length)
    (hM : s.currentMatch < (s.bracket.getD s.currentRound []).length)
    (hc : ¬ (getSlot s.bracket s.currentRound s.currentMatch).completed = true)
    (hr0 : 0 < s.currentRound)
    (hnone : (getSlot (updateBracketPlayers s.bracket) s.currentRound s.currentMatch).player1 = none
      ∨ (getSlot (updateBracketPlayers s.bracket) s.currentRound s.currentMatch).player2 = none) :
    getNextMatchGo (fuel + 1) s
      = getNextMatchGo fuel
          { s with bracket := updateBracketPlayers s.bracket, currentMatch := s.currentMatch + 1 } := by
  simp only [getNextMatchGo]
  rw [if_pos hR, if_pos hM, if_neg hc, if_pos hr0, if_pos hnone]

theorem getNextMatchGo_upd_ret (fuel : Nat) (s : TState)
    (hR : s.currentRound < s.bracket.length)
    (hM : s.currentMatch < (s.bracket.getD s.currentRound []).length)
    (hc : ¬ (getSlot s.bracket s.currentRound s.currentMatch).completed = true)
    (hr0 : 0 < s.currentRound)
    (hnone : ¬ ((getSlot (updateBracketPlayers s.bracket) s.currentRound s.currentMatch).player1 = none
      ∨ (getSlot (updateBracketPlayers s.bracket) s.currentRound s.currentMatch).player2 = none)) :
    getNextMatchGo (fuel + 1) s
      = ({ s with bracket := updateBracketPlayers s.bracket },
          some (s.currentRound, s.currentMatch)) := by
  simp only [getNextMatchGo]
  rw [if_pos hR, if_pos hM, if_neg hc, if_pos hr0, if_neg hnone]

theorem getNextMatchGo_r0_ret (fuel : Nat) (s : TState)
    (hR : s.currentRound < s.bracket.length)
    (hM : s.currentMatch < (s.bracket.getD s.currentRound []).length)
    (hc : ¬ (getSlot s.bracket s.currentRound s.currentMatch).completed = true)
    (hr0 : ¬ 0 < s.currentRound)
    (hps : (getSlot s.bracket s.currentRound s.currentMatch).player1.isSome = true
      ∧ (getSlot s.bracket s.currentRound s.currentMatch).player2.isSome = true) :
    getNextMatchGo (fuel + 1) s = (s, some (s.currentRound, s.currentMatch)) := by
  simp only [getNextMatchGo]
  rw [if_pos hR, if_pos hM, if_neg hc, if_neg hr0, if_pos hps]

theorem getNextMatchGo_r0_bye (fuel : Nat) (s : TState)
    (hR : s.currentRound < s.bracket.length)
    (hM : s.currentMatch < (s.bracket.getD s.currentRound []).length)
    (hc : ¬ (getSlot s.bracket s.currentRound s.currentMatch).completed = true)
    (hr0 : ¬ 0 < s.currentRound)
    (hps : ¬ ((getSlot s.bracket s.currentRound s.currentMatch).player1.isSome = true
      ∧ (getSlot s.bracket s.currentRound s.currentMatch).player2.isSome = true))
    (hbye : (getSlot s.bracket s.currentRound s.currentMatch).player1.isSome = true
      ∧ (getSlot s.bracket s.currentRound s.currentMatch).player2 = none) :
    getNextMatchGo (fuel + 1) s
      = getNextMatchGo fuel
          { s with
              bracket := setSlot s.bracket s.currentRound s.currentMatch
                { getSlot s.bracket s.currentRound s.currentMatch with
                    winner := (getSlot s.bracket s.currentRound s.currentMatch).player1
                    completed := true }
              currentMatch := s.currentMatch + 1 } := by
  simp only [getNextMatchGo]
  rw [if_pos hR, if_pos hM, if_neg hc, if_neg hr0, if_neg hps, if_pos hbye]

theorem TInv_bumpMatch (s : TState) (hInv : TInv s)
    (hc : (getSlot s.bracket s.currentRound s.currentMatch).completed = true) :
    TInv { s with currentMatch := s.currentMatch + 1 } := by
  obtain ⟨h1, h2, h3, h4, h5⟩ := hInv
  refine ⟨h1, ?_, h3, h4, h5⟩
  intro r m hr hm hcond
  have hr' : r < s.bracket.length := hr
  have hm' : m < (s.bracket.getD r []).length := hm
  have hcond' : r < s.currentRound ∨ (r = s.currentRound ∧ m < s.currentMatch + 1) := hcond
  show (getSlot s.bracket r m).completed = true
  rcases hcond' with hlt | ⟨heq, hm2⟩
  · exact h2 r m hr' hm' (Or.inl hlt)
  · by_cases hm3 : m < s.currentMatch
    · exact h2 r m hr' hm' (Or.inr ⟨heq, hm3⟩)
    · have hme : m = s.currentMatch := by omega
      subst heq
      subst hme
      exact hc

theorem TInv_bumpRound (s : TState) (hInv : TInv s)
    (hM : ¬ s.currentMatch < (s.bracket.getD s.currentRound []).length) :
    TInv { s with currentRound := s.currentRound + 1, currentMatch := 0 } := by
  obtain ⟨h1, h2, h3, h4, h5⟩ := hInv
  refine ⟨h1, ?_, h3, h4, h5⟩
  intro r m hr hm hcond
  have hr' : r < s.bracket.length := hr
  have hm' : m < (s.bracket.getD r []).length := hm
  have hcond' : r < s.currentRound + 1 ∨ (r = s.currentRound + 1 ∧ m < 0) := hcond
  show (getSlot s.bracket r m).completed = true
  rcases hcond' with hlt | ⟨_, hm2⟩
  · by_cases hre : r = s.currentRound
    · subst hre
      exact h2 s.currentRound m hr' hm' (Or.inr ⟨rfl, by omega⟩)
    · exact h2 r m hr' hm' (Or.inl (by omega))
  · omega

theorem TInv_UBP (s : TState) (hInv : TInv s) :
    TInv { s with bracket := updateBracketPlayers s.bracket } := by
  obtain ⟨h1, h2, h3, h4, h5⟩ := hInv
  refine ⟨UBP_ShapeChain _ h1, ?_, UBP_WinnersSet _ h3, UBP_ByesBlank _ h4,
    UBP_Round0Players _ h5⟩
  intro r m hr hm hcond
  have hr' : r < (updateBracketPlayers s.bracket).length := hr
  rw [updateBracketPlayers_length] at hr'
  have hm' : m < ((updateBracketPlayers s.bracket).getD r []).length := hm
  rw [updateBracketPlayers_roundLen] at hm'
  have hcond' : r < s.currentRound ∨ (r = s.currentRound ∧ m < s.currentMatch) := hcond
  show (getSlot (updateBracketPlayers s.bracket) r m).completed = true
  exact (UBP_slot_facts s.bracket r m hr' hm').2.1 (h2 r m hr' hm' hcond')

theorem TInv_r0_bye (s : TState) (hInv : TInv s)
    (hR : s.currentRound < s.bracket.length)
    (hM : s.currentMatch < (s.bracket.getD s.currentRound []).length)
    (_hr0 : s.currentRound = 0)
    (hp1 : (getSlot s.bracket s.currentRound s.currentMatch).player1.isSome = true)
    (hp2 : (getSlot s.bracket s.currentRound s.currentMatch).player2 = none) :
    TInv { s with
      bracket := setSlot s.bracket s.currentRound s.currentMatch
        { getSlot s.bracket s.currentRound s.currentMatch with
            winner := (getSlot s.bracket s.currentRound s.currentMatch).player1
            completed := true }
      currentMatch := s.currentMatch + 1 } := by
  obtain ⟨h1, h2, h3, h4, h5⟩ := hInv
  refine ⟨?_, ?_, ?_, ?_, ?_⟩
  · -- ShapeChain
    obtain ⟨g1, g2, g3⟩ := h1
    refine ⟨?_, ?_, ?_⟩
    · show 0 < (setSlot s.bracket s.currentRound s.currentMatch _).length
      rw [setSlot_length]
      exact g1
    · intro r hr
      have hr' : r + 1 < (setSlot s.bracket s.currentRound s.currentMatch _).length := hr
      rw [setSlot_length] at hr'
      show ((setSlot s.bracket s.currentRound s.currentMatch _).getD (r + 1) []).length
        = halveUp ((setSlot s.bracket s.currentRound s.currentMatch _).getD r []).length
      rw [setSlot_roundLen, setSlot_roundLen]
      exact g2 r hr'
    · show ((setSlot s.bracket s.currentRound s.currentMatch _).getD
        ((setSlot s.bracket s.currentRound s.currentMatch _).length - 1) []).length = 1
      rw [setSlot_length, setSlot_roundLen]
      exact g3
  · -- ScanPrefixDone
    intro r m hr hm hcond
    have hr' : r < (setSlot s.bracket s.currentRound s.currentMatch _).length := hr
    rw [setSlot_length] at hr'
    have hm' : m < ((setSlot s.bracket s.currentRound s.currentMatch _).getD r []).length := hm
    rw [setSlot_roundLen] at hm'
    have hcond' : r < s.currentRound ∨ (r = s.currentRound ∧ m < s.currentMatch + 1) := hcond
    show (getSlot (setSlot s.bracket s.currentRound s.currentMatch _) r m).completed = true
    by_cases hme : r = s.currentRound ∧ m = s.currentMatch
    · obtain ⟨e1, e2⟩ := hme
      subst e1
      subst e2
      rw [getSlot_setSlot_self s.bracket s.currentRound s.currentMatch _ hR hM]
    · rw [getSlot_setSlot_ne s.bracket s.currentRound s.currentMatch _ r m hme]
      rcases hcond' with hlt | ⟨heq, hm2⟩
      · exact h2 r m hr' hm' (Or.inl hlt)
      · have hm3 : m < s.currentMatch := by
          rcases Nat.lt_or_ge m s.currentMatch with h | h
          · exact h
          · exact absurd ⟨heq, by omega⟩ hme
        exact h2 r m hr' hm' (Or.inr ⟨heq, hm3⟩)
  · -- WinnersSet
    intro r m hr hm hcomp
    have hr' : r < s.bracket.length := by
      have := hr
      rw [setSlot_length] at this
      exact this
    have hm' : m < (s.bracket.getD r []).length := by
      have := hm
      rw [setSlot_roundLen] at this
      exact this
    by_cases hme : r = s.currentRound ∧ m = s.currentMatch
    · obtain ⟨e1, e2⟩ := hme
      subst e1
      subst e2
      rw [getSlot_setSlot_self s.bracket s.currentRound s.currentMatch _ hR hM]
      exact hp1
    · rw [getSlot_setSlot_ne s.bracket s.currentRound s.currentMatch _ r m hme] at hcomp ⊢
      exact h3 r m hr' hm' hcomp
  · -- ByesBlank
    intro r m hr hm hpn
    have hr' : r < s.bracket.length := by
      have := hr
      rw [setSlot_length] at this
      exact this
    have hm' : m < (s.bracket.getD r []).length := by
      have := hm
      rw [setSlot_roundLen] at this
      exact this
    by_cases hme : r = s.currentRound ∧ m = s.currentMatch
    · obtain ⟨e1, e2⟩ := hme
      subst e1
      subst e2
      rw [getSlot_setSlot_self s.bracket s.currentRound s.currentMatch _ hR hM]
      exact h4 s.currentRound s.currentMatch hr' hm' hp2
    · rw [getSlot_setSlot_ne s.bracket s.currentRound s.currentMatch _ r m hme] at hpn ⊢
      exact h4 r m hr' hm' hpn
  · -- Round0Players
    intro m hm
    have hm' : m < (s.bracket.getD 0 []).length := by
      have := hm
      rw [setSlot_roundLen] at this
      exact this
    by_cases hme : (0 : Nat) = s.currentRound ∧ m = s.currentMatch
    · obtain ⟨e1, e2⟩ := hme
      show (getSlot (setSlot s.bracket s.currentRound s.currentMatch _) 0 m).player1.isSome = true
      rw [e1, e2, getSlot_setSlot_self s.bracket _ _ _ hR hM]
      exact hp1
    · show (getSlot (setSlot s.bracket s.currentRound s.currentMatch _) 0 m).player1.isSome = true
      rw [getSlot_setSlot_ne s.bracket s.currentRound s.currentMatch _ 0 m hme]
      exact h5 m hm'

theorem getNextMatchGo_spec : ∀ (fuel : Nat) (s : TState), TInv s →
    scanMeasure s < fuel → GNMPost s (getNextMatchGo fuel s) := by
  intro fuel
  induction fuel with
  | zero =>
    intro s _ hf
    omega
  | succ fuel ih =>
    intro s hInv hfuel
    by_cases hR : s.currentRound < s.bracket.length
    · by_cases hM : s.currentMatch < (s.bracket.getD s.currentRound []).length
      · by_cases hc : (getSlot s.bracket s.currentRound s.currentMatch).completed = true
        · -- skip an already-completed slot
          rw [getNextMatchGo_skip_completed fuel s hR hM hc]
          refine GNMPost_comp s { s with currentMatch := s.currentMatch + 1 } _ rfl
            (fun r => rfl) (SlotsMono_refl _) (fun r m _ _ => rfl) rfl rfl rfl
            (ih { s with currentMatch := s.currentMatch + 1 } (TInv_bumpMatch s hInv hc) ?_)
          have := scanMeasure_incMatch s { s with currentMatch := s.currentMatch + 1 }
            hM rfl (fun r => rfl) rfl rfl
          omega
        · by_cases hcr : 0 < s.currentRound
          · -- later round: run updateBracketPlayers first
            have hbelow : ∀ r' m, r' < s.currentRound → m < (s.bracket.getD r' []).length →
                (getSlot s.bracket r' m).completed = true := by
              intro r' m hr' hm'
              exact hInv.2.1 r' m (by omega) hm' (Or.inl hr')
            have hready := UBP_ready s.bracket hInv.1 hInv.2.2.1 s.currentRound hcr hR hbelow
              s.currentMatch hM
            by_cases hnone :
                (getSlot (updateBracketPlayers s.bracket) s.currentRound s.currentMatch).player1
                    = none
                ∨ (getSlot (updateBracketPlayers s.bracket) s.currentRound s.currentMatch).player2
                    = none
            · -- a bye in this round: it was completed by the update, skip it
              have hp2n : (getSlot (updateBracketPlayers s.bracket) s.currentRound
                  s.currentMatch).player2 = none := by
                rcases hnone with h | h
                · rw [h] at hready
                  simp at hready
                · exact h
              have hcomp : (getSlot (updateBracketPlayers s.bracket) s.currentRound
                  s.currentMatch).completed = true := by
                rcases hready.2 with h | h
                · rw [hp2n] at h
                  simp at h
                · exact h
              rw [getNextMatchGo_upd_skip fuel s hR hM hc hcr hnone]
              refine GNMPost_comp s
                { s with bracket := updateBracketPlayers s.bracket
                         currentMatch := s.currentMatch + 1 } _
                (updateBracketPlayers_length s.bracket)
                (fun r => updateBracketPlayers_roundLen s.bracket r)
                (UBP_SlotsMono s.bracket)
                (fun r m hr hm => (UBP_slot_facts s.bracket r m hr hm).1)
                rfl rfl rfl
                (ih { s with bracket := updateBracketPlayers s.bracket
                             currentMatch := s.currentMatch + 1 }
                  (TInv_bumpMatch { s with bracket := updateBracketPlayers s.bracket }
                    (TInv_UBP s hInv) hcomp) ?_)
              have := scanMeasure_incMatch s
                { s with bracket := updateBracketPlayers s.bracket
                         currentMatch := s.currentMatch + 1 }
                hM (updateBracketPlayers_length s.bracket)
                (fun r => updateBracketPlayers_roundLen s.bracket r) rfl rfl
              omega
            · -- both players present after the update: return this slot
              rw [getNextMatchGo_upd_ret fuel s hR hM hc hcr hnone]
              push_neg at hnone
              obtain ⟨hn1, hn2⟩ := hnone
              refine ⟨TInv_UBP s hInv, updateBracketPlayers_length s.bracket,
                fun r => updateBracketPlayers_roundLen s.bracket r,
                UBP_SlotsMono s.bracket,
                fun r m hr hm => (UBP_slot_facts s.bracket r m hr hm).1,
                rfl, rfl, rfl, rfl, rfl, ?_, ?_, ?_, ?_, ?_⟩
              · show s.currentRound < (updateBracketPlayers s.bracket).length
                rw [updateBracketPlayers_length]
                exact hR
              · show s.currentMatch
                  < ((updateBracketPlayers s.bracket).getD s.currentRound []).length
                rw [updateBracketPlayers_roundLen]
                exact hM
              · exact Option.ne_none_iff_isSome.mp hn1
              · exact Option.ne_none_iff_isSome.mp hn2
              · rcases hcc : (getSlot (updateBracketPlayers s.bracket) s.currentRound
                    s.currentMatch).completed with _ | _
                · rfl
                · rcases (UBP_slot_facts s.bracket s.currentRound s.currentMatch
                      hR hM).2.2.2.2.2.1 hcc with h | h
                  · exact absurd h hc
                  · exact absurd h hn2
          · -- first round
            have hr0 : s.currentRound = 0 := by omega
            have hp1 : (getSlot s.bracket s.currentRound s.currentMatch).player1.isSome
                = true := by
              rw [hr0]
              exact hInv.2.2.2.2 s.currentMatch (by rw [← hr0]; exact hM)
            by_cases hps : (getSlot s.bracket s.currentRound s.currentMatch).player1.isSome = true
                ∧ (getSlot s.bracket s.currentRound s.currentMatch).player2.isSome = true
            · -- both players seeded: return this slot
              rw [getNextMatchGo_r0_ret fuel s hR hM hc hcr hps]
              exact ⟨hInv, rfl, fun r => rfl, SlotsMono_refl _, fun r m _ _ => rfl,
                rfl, rfl, rfl, rfl, rfl, hR, hM, hps.1, hps.2, by simpa using hc⟩
            · by_cases hbye : (getSlot s.bracket s.currentRound s.currentMatch).player1.isSome
                    = true
                  ∧ (getSlot s.bracket s.currentRound s.currentMatch).player2 = none
              · -- a first-round bye: complete it in place and skip
                rw [getNextMatchGo_r0_bye fuel s hR hM hc hcr hps hbye]
                refine GNMPost_comp s
                  { s with
                    bracket := setSlot s.bracket s.currentRound s.currentMatch
                      { getSlot s.bracket s.currentRound s.currentMatch with
                          winner := (getSlot s.bracket s.currentRound s.currentMatch).player1
                          completed := true }
                    currentMatch := s.currentMatch + 1 } _
                  (setSlot_length _ _ _ _) (fun r => setSlot_roundLen _ _ _ _ r) ?_ ?_
                  rfl rfl rfl
                  (ih { s with
                      bracket := setSlot s.bracket s.currentRound s.currentMatch
                        { getSlot s.bracket s.currentRound s.currentMatch with
                            winner := (getSlot s.bracket s.currentRound s.currentMatch).player1
                            completed := true }
                      currentMatch := s.currentMatch + 1 }
                    (TInv_r0_bye s hInv hR hM hr0 hbye.1 hbye.2) ?_)
                · intro r m hr hm
                  by_cases hme : r = s.currentRound ∧ m = s.currentMatch
                  · obtain ⟨e1, e2⟩ := hme
                    subst e1
                    subst e2
                    rw [getSlot_setSlot_self s.bracket s.currentRound s.currentMatch _ hR hM]
                    exact ⟨fun _ => rfl, fun x h => h, fun x h => h⟩
                  · rw [getSlot_setSlot_ne s.bracket s.currentRound s.currentMatch _ r m hme]
                    exact ⟨fun h => h, fun x h => h, fun x h => h⟩
                · intro r m hr hm
                  by_cases hme : r = s.currentRound ∧ m = s.currentMatch
                  · obtain ⟨e1, e2⟩ := hme
                    subst e1
                    subst e2
                    rw [getSlot_setSlot_self s.bracket s.currentRound s.currentMatch _ hR hM]
                  · rw [getSlot_setSlot_ne s.bracket s.currentRound s.currentMatch _ r m hme]
                · have := scanMeasure_incMatch s
                    { s with
                      bracket := setSlot s.bracket s.currentRound s.currentMatch
                        { getSlot s.bracket s.currentRound s.currentMatch with
                            winner := (getSlot s.bracket s.currentRound s.currentMatch).player1
                            completed := true }
                      currentMatch := s.currentMatch + 1 }
                    hM (setSlot_length _ _ _ _) (fun r => setSlot_roundLen _ _ _ _ r) rfl rfl
                  omega
              · -- impossible: the first round always seeds player 1
                exfalso
                rcases hp2 : (getSlot s.bracket s.currentRound s.currentMatch).player2 with _ | y
                · exact hbye ⟨hp1, hp2⟩
                · exact hps ⟨hp1, by rw [hp2]; rfl⟩
      · -- row exhausted: advance to the next round
        rw [getNextMatchGo_row fuel s hR hM]
        refine GNMPost_comp s
          { s with currentRound := s.currentRound + 1, currentMatch := 0 } _ rfl
          (fun r => rfl) (SlotsMono_refl _) (fun r m _ _ => rfl) rfl rfl rfl
          (ih { s with currentRound := s.currentRound + 1, currentMatch := 0 }
            (TInv_bumpRound s hInv hM) ?_)
        have := scanMeasure_incRound s hR hM
        omega
    · -- the scan has passed the last round: the tournament is complete
      rw [getNextMatchGo_stop fuel s hR]
      exact ⟨hInv, rfl, fun r => rfl, SlotsMono_refl _, fun r m _ _ => rfl, rfl, rfl, rfl,
        by show s.bracket.length ≤ s.currentRound; omega⟩

theorem getNextMatch_spec (s : TState) (hInv : TInv s) : GNMPost s (getNextMatch s) :=
  getNextMatchGo_spec (bracketScanBound s) s hInv (scanMeasure_lt_bound s)

theorem getNextMatch_none_of_done (s : TState)
    (hR : ¬ s.currentRound < s.bracket.length) : getNextMatch s = (s, none) := by
  show getNextMatchGo ((s.bracket.map List.length).sum + s.bracket.length + 1) s = (s, none)
  exact getNextMatchGo_stop _ s hR

theorem addSeriesPoints_other (a b q : Nat) (hqa : q ≠ a) (hqb : q ≠ b) :
    ∀ (sc : List (Nat × Nat)) (st : Nat → PStats), addSeriesPoints a b sc st q = st q := by
  intro sc
  induction sc with
  | nil =>
    intro st
    rfl
  | cons p rest ih =>
    intro st
    rcases p with ⟨l, r⟩
    show addSeriesPoints a b rest _ q = st q
    rw [ih]
    simp only [addPointsTo]
    rw [if_neg hqb, if_neg hqa]

theorem applyMatchStats_other (st : Nat → PStats) (w l a b : Nat)
    (sc : List (Nat × Nat)) (q : Nat) (hqa : q ≠ a) (hqb : q ≠ b)
    (hw : w = a ∨ w = b) (hl : l = a ∨ l = b) :
    applyMatchStats st w l a b sc q = st q := by
  have hqw : q ≠ w := by rcases hw with h | h <;> omega
  have hql : q ≠ l := by rcases hl with h | h <;> omega
  show addSeriesPoints a b sc _ q = st q
  rw [addSeriesPoints_other a b q hqa hqb]
  simp only [bumpMatchesPlayed, bumpLosses, bumpWins]
  rw [if_neg hql, if_neg hqw, if_neg hql, if_neg hqw]

/-- Invariant preservation for a single slot overwrite that keeps the first
player, keeps or gains completion, keeps completed slots with winners, and
keeps bye slots without games. -/
theorem TInv_setSlot (s : TState) (hInv : TInv s) (r i : Nat)
    (hR : r < s.bracket.length)
    (hM : i < (s.bracket.getD r []).length)
    (mt' : TMatch)
    (hwin : mt'.completed = true → mt'.winner.isSome = true)
    (hbyeS : mt'.player2 = none → mt'.scores = [])
    (hp1e : mt'.player1 = (getSlot s.bracket r i).player1)
    (hcm : (getSlot s.bracket r i).completed = true → mt'.completed = true) :
    TInv { s with bracket := setSlot s.bracket r i mt' } := by
  obtain ⟨h1, h2, h3, h4, h5⟩ := hInv
  refine ⟨?_, ?_, ?_, ?_, ?_⟩
  · obtain ⟨g1, g2, g3⟩ := h1
    refine ⟨?_, ?_, ?_⟩
    · show 0 < (setSlot s.bracket r i mt').length
      rw [setSlot_length]
      exact g1
    · intro r' hr'
      have hr2 : r' + 1 < (setSlot s.bracket r i mt').length := hr'
      rw [setSlot_length] at hr2
      show ((setSlot s.bracket r i mt').getD (r' + 1) []).length
        = halveUp ((setSlot s.bracket r i mt').getD r' []).length
      rw [setSlot_roundLen, setSlot_roundLen]
      exact g2 r' hr2
    · show ((setSlot s.bracket r i mt').getD ((setSlot s.bracket r i mt').length - 1) []).length
        = 1
      rw [setSlot_length, setSlot_roundLen]
      exact g3
  · intro r' m hr' hm' hcond
    have hr2 : r' < s.bracket.length := by
      have := hr'
      rw [setSlot_length] at this
      exact this
    have hm2 : m < (s.bracket.getD r' []).length := by
      have := hm'
      rw [setSlot_roundLen] at this
      exact this
    have hcond' : r' < s.currentRound ∨ (r' = s.currentRound ∧ m < s.currentMatch) := hcond
    show (getSlot (setSlot s.bracket r i mt') r' m).completed = true
    by_cases hme : r' = r ∧ m = i
    · obtain ⟨e1, e2⟩ := hme
      subst e1
      subst e2
      rw [getSlot_setSlot_self s.bracket r' m mt' hR hM]
      exact hcm (h2 r' m hr2 hm2 hcond')
    · rw [getSlot_setSlot_ne s.bracket r i mt' r' m hme]
      exact h2 r' m hr2 hm2 hcond'
  · intro r' m hr' hm' hcomp
    have hr2 : r' < s.bracket.length := by
      have := hr'
      rw [setSlot_length] at this
      exact this
    have hm2 : m < (s.bracket.getD r' []).length := by
      have := hm'
      rw [setSlot_roundLen] at this
      exact this
    by_cases hme : r' = r ∧ m = i
    · obtain ⟨e1, e2⟩ := hme
      subst e1
      subst e2
      rw [getSlot_setSlot_self s.bracket r' m mt' hR hM] at hcomp ⊢
      exact hwin hcomp
    · rw [getSlot_setSlot_ne s.bracket r i mt' r' m hme] at hcomp ⊢
      exact h3 r' m hr2 hm2 hcomp
  · intro r' m hr' hm' hpn
    have hr2 : r' < s.bracket.length := by
      have := hr'
      rw [setSlot_length] at this
      exact this
    have hm2 : m < (s.bracket.getD r' []).length := by
      have := hm'
      rw [setSlot_roundLen] at this
      exact this
    by_cases hme : r' = r ∧ m = i
    · obtain ⟨e1, e2⟩ := hme
      subst e1
      subst e2
      rw [getSlot_setSlot_self s.bracket r' m mt' hR hM] at hpn ⊢
      exact hbyeS hpn
    · rw [getSlot_setSlot_ne s.bracket r i mt' r' m hme] at hpn ⊢
      exact h4 r' m hr2 hm2 hpn
  · intro m hm'
    have hm2 : m < (s.bracket.getD 0 []).length := by
      have := hm'
      rw [setSlot_roundLen] at this
      exact this
    show (getSlot (setSlot s.bracket r i mt') 0 m).player1.isSome = true
    by_cases hme : (0 : Nat) = r ∧ m = i
    · rw [hme.1, hme.2, getSlot_setSlot_self s.bracket r i mt' hR hM, hp1e,
        ← hme.1, ← hme.2]
      exact h5 m hm2
    · rw [getSlot_setSlot_ne s.bracket r i mt' 0 m hme]
      exact h5 m hm2

theorem recordResult_eq_pending (s : TState) (r i ls rs : Nat)
    (hdone : ¬ (winsNeeded s.matchesPerPairing
        ≤ p1WinsOf ((getSlot s.bracket r i).scores ++ [(ls, rs)])
      ∨ winsNeeded s.matchesPerPairing
        ≤ p2WinsOf ((getSlot s.bracket r i).scores ++ [(ls, rs)]))) :
    recordResult s r i ls rs
      = ({ s with
            bracket := setSlot s.bracket r i
              { getSlot s.bracket r i with
                  scores := (getSlot s.bracket r i).scores ++ [(ls, rs)] } }, false) := by
  simp only [recordResult]
  rw [if_neg hdone]

theorem recordResult_eq_done (s : TState) (r i ls rs a b : Nat)
    (hp1 : (getSlot s.bracket r i).player1 = some a)
    (hp2 : (getSlot s.bracket r i).player2 = some b)
    (hdone : winsNeeded s.matchesPerPairing
        ≤ p1WinsOf ((getSlot s.bracket r i).scores ++ [(ls, rs)])
      ∨ winsNeeded s.matchesPerPairing
        ≤ p2WinsOf ((getSlot s.bracket r i).scores ++ [(ls, rs)])) :
    recordResult s r i ls rs
      = (if p2WinsOf ((getSlot s.bracket r i).scores ++ [(ls, rs)])
            < p1WinsOf ((getSlot s.bracket r i).scores ++ [(ls, rs)]) then
          ({ s with
              bracket := setSlot s.bracket r i
                { getSlot s.bracket r i with
                    scores := (getSlot s.bracket r i).scores ++ [(ls, rs)]
                    winner := some a
                    completed := true }
              stats := applyMatchStats s.stats a b a b
                ((getSlot s.bracket r i).scores ++ [(ls, rs)])
              results := s.results
                ++ [(a, b, (getSlot s.bracket r i).scores ++ [(ls, rs)])] }, true)
        else
          ({ s with
              bracket := setSlot s.bracket r i
                { getSlot s.bracket r i with
                    scores := (getSlot s.bracket r i).scores ++ [(ls, rs)]
                    winner := some b
                    completed := true }
              stats := applyMatchStats s.stats b a a b
                ((getSlot s.bracket r i).scores ++ [(ls, rs)])
              results := s.results
                ++ [(b, a, (getSlot s.bracket r i).scores ++ [(ls, rs)])] }, true)) := by
  simp only [recordResult]
  rw [if_pos hdone, hp1, hp2]
  by_cases hlt : p2WinsOf ((getSlot s.bracket r i).scores ++ [(ls, rs)])
      < p1WinsOf ((getSlot s.bracket r i).scores ++ [(ls, rs)])
  · simp only [if_pos hlt]
  · simp only [if_neg hlt]

theorem recordResult_step (s : TState) (r i a b ls rs : Nat)
    (hInv : TInv s)
    (hR : r < s.bracket.length)
    (hM : i < (s.bracket.getD r []).length)
    (hp1 : (getSlot s.bracket r i).player1 = some a)
    (hp2 : (getSlot s.bracket r i).player2 = some b) :
    TInv (recordResult s r i ls rs).1
    ∧ (recordResult s r i ls rs).1.bracket.length = s.bracket.length
    ∧ (∀ r', ((recordResult s r i ls rs).1.bracket.getD r' []).length
        = (s.bracket.getD r' []).length)
    ∧ SlotsMono s.bracket (recordResult s r i ls rs).1.bracket
    ∧ (recordResult s r i ls rs).1.currentRound = s.currentRound
    ∧ (recordResult s r i ls rs).1.currentMatch = s.currentMatch
    ∧ (recordResult s r i ls rs).1.matchesPerPairing = s.matchesPerPairing
    ∧ (getSlot (recordResult s r i ls rs).1.bracket r i).player1 = some a
    ∧ (getSlot (recordResult s r i ls rs).1.bracket r i).player2 = some b
    ∧ ((recordResult s r i ls rs).2 = true →
        (getSlot (recordResult s r i ls rs).1.bracket r i).completed = true)
    ∧ ((recordResult s r i ls rs).2 = false →
        (getSlot (recordResult s r i ls rs).1.bracket r i).scores
            = (getSlot s.bracket r i).scores ++ [(ls, rs)]
          ∧ ¬ (winsNeeded s.matchesPerPairing
              ≤ p1WinsOf ((getSlot s.bracket r i).scores ++ [(ls, rs)])
            ∨ winsNeeded s.matchesPerPairing
              ≤ p2WinsOf ((getSlot s.bracket r i).scores ++ [(ls, rs)])))
    ∧ (∀ q, (recordResult s r i ls rs).1.stats q ≠ s.stats q → q = a ∨ q = b) := by
  by_cases hdone : winsNeeded s.matchesPerPairing
      ≤ p1WinsOf ((getSlot s.bracket r i).scores ++ [(ls, rs)])
    ∨ winsNeeded s.matchesPerPairing
      ≤ p2WinsOf ((getSlot s.bracket r i).scores ++ [(ls, rs)])
  · rw [recordResult_eq_done s r i ls rs a b hp1 hp2 hdone]
    by_cases hlt : p2WinsOf ((getSlot s.bracket r i).scores ++ [(ls, rs)])
        < p1WinsOf ((getSlot s.bracket r i).scores ++ [(ls, rs)])
    · rw [if_pos hlt]
      refine ⟨?_, setSlot_length _ _ _ _, fun r' => setSlot_roundLen _ _ _ _ r', ?_,
        rfl, rfl, rfl, ?_, ?_, ?_, ?_, ?_⟩
      · exact TInv_setSlot s hInv r i hR hM _ (fun _ => rfl)
          (fun h => absurd (hp2.symm.trans h) (Option.some_ne_none b)) rfl (fun _ => rfl)
      · intro r' m hr' hm'
        by_cases hme : r' = r ∧ m = i
        · obtain ⟨e1, e2⟩ := hme
          subst e1
          subst e2
          rw [getSlot_setSlot_self s.bracket r' m _ hR hM]
          exact ⟨fun _ => rfl, fun x h => h, fun x h => h⟩
        · rw [getSlot_setSlot_ne s.bracket r i _ r' m hme]
          exact ⟨fun h => h, fun x h => h, fun x h => h⟩
      · rw [getSlot_setSlot_self s.bracket r i _ hR hM]
        exact hp1
      · rw [getSlot_setSlot_self s.bracket r i _ hR hM]
        exact hp2
      · intro h
        rw [getSlot_setSlot_self s.bracket r i _ hR hM]
      · intro h
        exact nomatch h
      · intro q hq
        by_cases hqa : q = a
        · exact Or.inl hqa
        · by_cases hqb : q = b
          · exact Or.inr hqb
          · exact absurd (applyMatchStats_other s.stats a b a b _ q hqa hqb
              (Or.inl rfl) (Or.inr rfl)) hq
    · rw [if_neg hlt]
      refine ⟨?_, setSlot_length _ _ _ _, fun r' => setSlot_roundLen _ _ _ _ r', ?_,
        rfl, rfl, rfl, ?_, ?_, ?_, ?_, ?_⟩
      · exact TInv_setSlot s hInv r i hR hM _ (fun _ => rfl)
          (fun h => absurd (hp2.symm.trans h) (Option.some_ne_none b)) rfl (fun _ => rfl)
      · intro r' m hr' hm'
        by_cases hme : r' = r ∧ m = i
        · obtain ⟨e1, e2⟩ := hme
          subst e1
          subst e2
          rw [getSlot_setSlot_self s.bracket r' m _ hR hM]
          exact ⟨fun _ => rfl, fun x h => h, fun x h => h⟩
        · rw [getSlot_setSlot_ne s.bracket r i _ r' m hme]
          exact ⟨fun h => h, fun x h => h, fun x h => h⟩
      · rw [getSlot_setSlot_self s.bracket r i _ hR hM]
        exact hp1
      · rw [getSlot_setSlot_self s.bracket r i _ hR hM]
        exact hp2
      · intro h
        rw [getSlot_setSlot_self s.bracket r i _ hR hM]
      · intro h
        exact nomatch h
      · intro q hq
        by_cases hqa : q = a
        · exact Or.inl hqa
        · by_cases hqb : q = b
          · exact Or.inr hqb
          · exact absurd (applyMatchStats_other s.stats b a a b _ q hqa hqb
              (Or.inr rfl) (Or.inl rfl)) hq
  · rw [recordResult_eq_pending s r i ls rs hdone]
    refine ⟨?_, setSlot_length _ _ _ _, fun r' => setSlot_roundLen _ _ _ _ r', ?_,
      rfl, rfl, rfl, ?_, ?_, ?_, ?_, ?_⟩
    · exact TInv_setSlot s hInv r i hR hM _ (fun h => hInv.2.2.1 r i hR hM h)
        (fun h => absurd (hp2.symm.trans h) (Option.some_ne_none b)) rfl (fun h => h)
    · intro r' m hr' hm'
      by_cases hme : r' = r ∧ m = i
      · obtain ⟨e1, e2⟩ := hme
        subst e1
        subst e2
        rw [getSlot_setSlot_self s.bracket r' m _ hR hM]
        exact ⟨fun h => h, fun x h => h, fun x h => h⟩
      · rw [getSlot_setSlot_ne s.bracket r i _ r' m hme]
        exact ⟨fun h => h, fun x h => h, fun x h => h⟩
    · rw [getSlot_setSlot_self s.bracket r i _ hR hM]
      exact hp1
    · rw [getSlot_setSlot_self s.bracket r i _ hR hM]
      exact hp2
    · intro h
      exact nomatch h
    · intro h
      refine ⟨?_, hdone⟩
      rw [getSlot_setSlot_self s.bracket r i _ hR hM]
    · intro q hq
      exact absurd rfl hq

theorem playSeries_succ_done (strat : Nat → Nat × Nat) (r i fuel k : Nat) (s : TState)
    (h : (recordResult s r i (strat k).1 (strat k).2).2 = true) :
    playSeries strat r i (fuel + 1) k s
      = ((recordResult s r i (strat k).1 (strat k).2).1, k + 1) := by
  simp only [playSeries]
  rw [if_pos h]

theorem playSeries_succ_next (strat : Nat → Nat × Nat) (r i fuel k : Nat) (s : TState)
    (h : (recordResult s r i (strat k).1 (strat k).2).2 = false) :
    playSeries strat r i (fuel + 1) k s
      = playSeries strat r i fuel (k + 1) (recordResult s r i (strat k).1 (strat k).2).1 := by
  simp only [playSeries]
  rw [if_neg (by rw [h]; exact Bool.false_ne_true)]

theorem playSeries_spec : ∀ (fuel k : Nat) (s : TState) (strat : Nat → Nat × Nat)
    (r i a b : Nat),
    TInv s →
    r < s.bracket.length → i < (s.bracket.getD r []).length →
    (getSlot s.bracket r i).player1 = some a →
    (getSlot s.bracket r i).player2 = some b →
    1 ≤ fuel →
    2 * winsNeeded s.matchesPerPairing
      ≤ fuel + p1WinsOf (getSlot s.bracket r i).scores
          + p2WinsOf (getSlot s.bracket r i).scores →
    (TInv (playSeries strat r i fuel k s).1
     ∧ (playSeries strat r i fuel k s).1.bracket.length = s.bracket.length
     ∧ (∀ r', ((playSeries strat r i fuel k s).1.bracket.getD r' []).length
         = (s.bracket.getD r' []).length)
     ∧ SlotsMono s.bracket (playSeries strat r i fuel k s).1.bracket
     ∧ (playSeries strat r i fuel k s).1.currentRound = s.currentRound
     ∧ (playSeries strat r i fuel k s).1.currentMatch = s.currentMatch
     ∧ (playSeries strat r i fuel k s).1.matchesPerPairing = s.matchesPerPairing
     ∧ (getSlot (playSeries strat r i fuel k s).1.bracket r i).player1 = some a
     ∧ (getSlot (playSeries strat r i fuel k s).1.bracket r i).player2 = some b
     ∧ (getSlot (playSeries strat r i fuel k s).1.bracket r i).completed = true
     ∧ (∀ q, (playSeries strat r i fuel k s).1.stats q ≠ s.stats q → q = a ∨ q = b)) := by
  intro fuel
  induction fuel with
  | zero =>
    intro k s strat r i a b _ _ _ _ _ h1 _
    exact absurd h1 (by omega)
  | succ fuel ih =>
    intro k s strat r i a b hInv hR hM hp1 hp2 hf1 hf2
    obtain ⟨sInv, sLen, sRow, sMono, sCR, sCM, sMPP, sP1, sP2, sDoneC, sPendC, sStats⟩ :=
      recordResult_step s r i a b (strat k).1 (strat k).2 hInv hR hM hp1 hp2
    rcases hres : (recordResult s r i (strat k).1 (strat k).2).2 with _ | _
    · -- the game did not decide the series yet: play on
      rw [playSeries_succ_next strat r i fuel k s hres]
      obtain ⟨hsc, hnotdone⟩ := sPendC hres
      have e1 : p1WinsOf ((getSlot s.bracket r i).scores ++ [((strat k).1, (strat k).2)])
          + p2WinsOf ((getSlot s.bracket r i).scores ++ [((strat k).1, (strat k).2)])
          = (getSlot s.bracket r i).scores.length + 1 := by
        rw [p1_p2_wins_partition]
        simp
      have e0 : p1WinsOf (getSlot s.bracket r i).scores
          + p2WinsOf (getSlot s.bracket r i).scores
          = (getSlot s.bracket r i).scores.length := p1_p2_wins_partition _
      push_neg at hnotdone
      have hf1' : 1 ≤ fuel := by omega
      have hf2' : 2 * winsNeeded (recordResult s r i (strat k).1 (strat k).2).1.matchesPerPairing
          ≤ fuel + p1WinsOf (getSlot (recordResult s r i (strat k).1
                (strat k).2).1.bracket r i).scores
            + p2WinsOf (getSlot (recordResult s r i (strat k).1
                (strat k).2).1.bracket r i).scores := by
        rw [sMPP, hsc]
        omega
      obtain ⟨iInv, iLen, iRow, iMono, iCR, iCM, iMPP, iP1, iP2, iCompl, iStats⟩ :=
        ih (k + 1) (recordResult s r i (strat k).1 (strat k).2).1 strat r i a b sInv
          (by rw [sLen]; exact hR) (by rw [sRow]; exact hM) sP1 sP2 hf1' hf2'
      refine ⟨iInv, by rw [iLen, sLen], fun r' => by rw [iRow r', sRow r'], ?_,
        by rw [iCR, sCR], by rw [iCM, sCM], by rw [iMPP, sMPP], iP1, iP2, iCompl, ?_⟩
      · exact SlotsMono_trans sLen.symm (fun r' => (sRow r').symm) sMono iMono
      · intro q hq
        by_cases hmid : (playSeries strat r i fuel (k + 1)
            (recordResult s r i (strat k).1 (strat k).2).1).1.stats q
            = (recordResult s r i (strat k).1 (strat k).2).1.stats q
        · exact sStats q (fun hcontra => hq (hmid.trans hcontra))
        · exact iStats q hmid
    · -- the series is decided: stop
      rw [playSeries_succ_done strat r i fuel k s hres]
      exact ⟨sInv, sLen, sRow, sMono, sCR, sCM, sMPP, sP1, sP2, sDoneC hres, sStats⟩

theorem incompleteCount_mono (br br' : List (List TMatch))
    (hlen : br'.length = br.length)
    (hrow : ∀ r, (br'.getD r []).length = (br.getD r []).length)
    (hmono : SlotsMono br br') : incompleteCount br' ≤ incompleteCount br := by
  simp only [incompleteCount]
  rw [hlen]
  apply Finset.sum_le_sum
  intro r hr
  rw [hrow r]
  apply Finset.sum_le_sum
  intro m hm
  have hr' : r < br.length := Finset.mem_range.mp hr
  have hm' : m < (br.getD r []).length := Finset.mem_range.mp hm
  by_cases hc : (getSlot br r m).completed = true
  · rw [if_pos hc, if_pos ((hmono r m hr' hm').1 hc)]
  · rw [if_neg hc]
    split <;> omega

theorem incompleteCount_strict (br br' : List (List TMatch))
    (hlen : br'.length = br.length)
    (hrow : ∀ r, (br'.getD r []).length = (br.getD r []).length)
    (hmono : SlotsMono br br') (r0 i0 : Nat)
    (hr0 : r0 < br.length) (hi0 : i0 < (br.getD r0 []).length)
    (hflip : (getSlot br r0 i0).completed = false ∧ (getSlot br' r0 i0).completed = true) :
    incompleteCount br' < incompleteCount br := by
  simp only [incompleteCount]
  rw [hlen]
  apply Finset.sum_lt_sum
  · intro r hr
    rw [hrow r]
    apply Finset.sum_le_sum
    intro m hm
    have hr' : r < br.length := Finset.mem_range.mp hr
    have hm' : m < (br.getD r []).length := Finset.mem_range.mp hm
    by_cases hc : (getSlot br r m).completed = true
    · rw [if_pos hc, if_pos ((hmono r m hr' hm').1 hc)]
    · rw [if_neg hc]
      split <;> omega
  · refine ⟨r0, Finset.mem_range.mpr hr0, ?_⟩
    rw [hrow r0]
    apply Finset.sum_lt_sum
    · intro m hm
      have hm' : m < (br.getD r0 []).length := Finset.mem_range.mp hm
      by_cases hc : (getSlot br r0 m).completed = true
      · rw [if_pos hc, if_pos ((hmono r0 m hr0 hm').1 hc)]
      · rw [if_neg hc]
        split <;> omega
    · refine ⟨i0, Finset.mem_range.mpr hi0, ?_⟩
      rw [if_pos hflip.2, if_neg (by rw [hflip.1]; exact Bool.false_ne_true)]
      omega

theorem listSum_lengths (br : List (List TMatch)) :
    (br.map List.length).sum = ∑ r ∈ Finset.range br.length, (br.getD r []).length := by
  induction br with
  | nil => simp
  | cons row rest ih =>
    simp only [List.map_cons, List.sum_cons, List.length_cons]
    rw [Finset.sum_range_succ']
    simp only [List.getD_cons_succ, List.getD_cons_zero]
    rw [← ih]
    omega

theorem incompleteCount_le (br : List (List TMatch)) :
    incompleteCount br ≤ (br.map List.length).sum := by
  rw [listSum_lengths]
  apply Finset.sum_le_sum
  intro r hr
  calc ∑ m ∈ Finset.range (br.getD r []).length,
        (if (getSlot br r m).completed = true then 0 else 1)
      ≤ ∑ m ∈ Finset.range (br.getD r []).length, 1 := by
        apply Finset.sum_le_sum
        intro m hm
        split <;> omega
    _ = (br.getD r []).length := by simp

theorem runTournament_succ_none (strat : Nat → Nat × Nat) (fuel k : Nat) (s : TState)
    (h : (getNextMatch s).2 = none) :
    runTournament strat (fuel + 1) k s = (getNextMatch s).1 := by
  simp only [runTournament]
  rw [h]

theorem runTournament_succ_some (strat : Nat → Nat × Nat) (fuel k : Nat) (s : TState)
    (r i : Nat) (h : (getNextMatch s).2 = some (r, i)) :
    runTournament strat (fuel + 1) k s
      = runTournament strat fuel
          (playSeries strat r i (2 * winsNeeded s.matchesPerPairing + 1) k
            (getNextMatch s).1).2
          (playSeries strat r i (2 * winsNeeded s.matchesPerPairing + 1) k
            (getNextMatch s).1).1 := by
  simp only [runTournament]
  rw [h]

theorem runTournament_spec : ∀ (fuel k : Nat) (s : TState) (strat : Nat → Nat × Nat),
    TInv s → incompleteCount s.bracket < fuel →
    (TInv (runTournament strat fuel k s)
     ∧ (runTournament strat fuel k s).bracket.length = s.bracket.length
     ∧ (∀ r, ((runTournament strat fuel k s).bracket.getD r []).length
         = (s.bracket.getD r []).length)
     ∧ SlotsMono s.bracket (runTournament strat fuel k s).bracket
     ∧ (runTournament strat fuel k s).matchesPerPairing = s.matchesPerPairing
     ∧ s.bracket.length ≤ (runTournament strat fuel k s).currentRound
     ∧ (∀ q, (runTournament strat fuel k s).stats q ≠ s.stats q →
         hasTwoPlayerSlotWith (runTournament strat fuel k s).bracket q)) := by
  intro fuel
  induction fuel with
  | zero =>
    intro k s strat _ hf
    exact absurd hf (by omega)
  | succ fuel ih =>
    intro k s strat hInv hfuel
    obtain ⟨gInv, gLen, gRow, gMono, gSc, gStats, gMPP, gRes, gOut⟩ := getNextMatch_spec s hInv
    rcases hgn : (getNextMatch s).2 with _ | ⟨r, i⟩
    · -- tournament finished: the driver stops
      rw [runTournament_succ_none strat fuel k s hgn]
      rw [hgn] at gOut
      refine ⟨gInv, gLen, gRow, gMono, gMPP, ?_, ?_⟩
      · have h1 : (getNextMatch s).1.bracket.length ≤ (getNextMatch s).1.currentRound := gOut
        omega
      · intro q hq
        exact absurd (congrFun gStats q) hq
    · -- play the series at the returned slot, then continue
      rw [runTournament_succ_some strat fuel k s r i hgn]
      rw [hgn] at gOut
      obtain ⟨oCR, oCM, oR, oM, oP1, oP2, oC⟩ := gOut
      obtain ⟨a, ha⟩ := Option.isSome_iff_exists.mp oP1
      obtain ⟨b, hb⟩ := Option.isSome_iff_exists.mp oP2
      obtain ⟨pInv, pLen, pRow, pMono, pCR, pCM, pMPP, pP1, pP2, pCompl, pStats⟩ :=
        playSeries_spec (2 * winsNeeded s.matchesPerPairing + 1) k (getNextMatch s).1 strat
          r i a b gInv oR oM ha hb (by omega) (by rw [gMPP]; omega)
      have hdec1 : incompleteCount (getNextMatch s).1.bracket ≤ incompleteCount s.bracket :=
        incompleteCount_mono s.bracket (getNextMatch s).1.bracket gLen gRow gMono
      have hdec2 : incompleteCount (playSeries strat r i
            (2 * winsNeeded s.matchesPerPairing + 1) k (getNextMatch s).1).1.bracket
          < incompleteCount (getNextMatch s).1.bracket :=
        incompleteCount_strict (getNextMatch s).1.bracket _ pLen pRow pMono r i oR oM
          ⟨oC, pCompl⟩
      obtain ⟨rInv, rLen, rRow, rMono, rMPP, rDone, rStats⟩ :=
        ih (playSeries strat r i (2 * winsNeeded s.matchesPerPairing + 1) k
            (getNextMatch s).1).2
          (playSeries strat r i (2 * winsNeeded s.matchesPerPairing + 1) k
            (getNextMatch s).1).1
          strat pInv (by omega)
      have hLen2 : (playSeries strat r i (2 * winsNeeded s.matchesPerPairing + 1) k
          (getNextMatch s).1).1.bracket.length = s.bracket.length := pLen.trans gLen
      have hRow2 : ∀ r', ((playSeries strat r i (2 * winsNeeded s.matchesPerPairing + 1) k
          (getNextMatch s).1).1.bracket.getD r' []).length = (s.bracket.getD r' []).length :=
        fun r' => (pRow r').trans (gRow r')
      have tMono : SlotsMono s.bracket (playSeries strat r i
          (2 * winsNeeded s.matchesPerPairing + 1) k (getNextMatch s).1).1.bracket :=
        SlotsMono_trans gLen.symm (fun r' => (gRow r').symm) gMono pMono
      refine ⟨rInv, rLen.trans hLen2, fun r' => (rRow r').trans (hRow2 r'),
        SlotsMono_trans hLen2.symm (fun r' => (hRow2 r').symm) tMono rMono,
        rMPP.trans (pMPP.trans gMPP), ?_, ?_⟩
      · omega
      · intro q hq
        by_cases hmid : (runTournament strat fuel
            (playSeries strat r i (2 * winsNeeded s.matchesPerPairing + 1) k
              (getNextMatch s).1).2
            (playSeries strat r i (2 * winsNeeded s.matchesPerPairing + 1) k
              (getNextMatch s).1).1).stats q
            = (playSeries strat r i (2 * winsNeeded s.matchesPerPairing + 1) k
              (getNextMatch s).1).1.stats q
        · have hq2 : (playSeries strat r i (2 * winsNeeded s.matchesPerPairing + 1) k
              (getNextMatch s).1).1.stats q ≠ (getNextMatch s).1.stats q := by
            intro hcontra
            exact hq (hmid.trans (hcontra.trans (congrFun gStats q)))
          have hab := pStats q hq2
          have hslot : hasTwoPlayerSlotWith (playSeries strat r i
              (2 * winsNeeded s.matchesPerPairing + 1) k (getNextMatch s).1).1.bracket q := by
            refine ⟨r, i, by rw [pLen]; exact oR, by rw [pRow]; exact oM,
              by rw [pP1]; rfl, by rw [pP2]; rfl, ?_⟩
            rcases hab with hqa | hqb
            · subst hqa
              exact Or.inl pP1
            · subst hqb
              exact Or.inr pP2
          exact hasTwoPlayerSlotWith_mono rLen.symm (fun r' => (rRow r').symm) rMono hslot
        · exact rStats q hmid

theorem generateBracket_slot_zero (players : List Nat) (mpp : Nat) (st0 : Nat → PStats)
    (m : Nat) (hm : m < ((generateBracket players mpp st0).bracket.getD 0 []).length) :
    getSlot (generateBracket players mpp st0).bracket 0 m ∈ mkFirstRound players := by
  show ((generateBracket players mpp st0).bracket.getD 0 []).getD m default ∈ _
  simp only [generateBracket, List.getD_cons_zero] at hm ⊢
  rw [List.getD_eq_getElem _ _ hm]
  exact List.getElem_mem hm

theorem generateBracket_slot_succ (players : List Nat) (mpp : Nat) (st0 : Nat → PStats)
    (r m : Nat) (hr : r + 1 < (generateBracket players mpp st0).bracket.length)
    (hm : m < ((generateBracket players mpp st0).bracket.getD (r + 1) []).length) :
    getSlot (generateBracket players mpp st0).bracket (r + 1) m = emptyTMatch := by
  show ((generateBracket players mpp st0).bracket.getD (r + 1) []).getD m default = _
  simp only [generateBracket, List.getD_cons_succ, List.length_cons,
    mkEmptyRounds_length] at hm hr ⊢
  rw [mkEmptyRounds_getD _ _ _ (by omega)] at hm ⊢
  rw [List.getD_eq_getElem _ _ hm, List.getElem_replicate]

theorem generateBracket_TInv (players : List Nat) (mpp : Nat) (st0 : Nat → PStats)
    (hN : 2 ≤ players.length) : TInv (generateBracket players mpp st0) := by
  refine ⟨⟨?_, ?_, generateBracket_lastLen players mpp st0 hN⟩, ?_, ?_, ?_, ?_⟩
  · rw [generateBracket_length players mpp st0 hN]
    exact Nat.clog_pos (by norm_num) (by omega)
  · intro r hr
    rw [generateBracket_roundLen players mpp st0 (r + 1) hr,
      generateBracket_roundLen players mpp st0 r (by omega),
      Function.iterate_succ_apply']
  · intro r m hr hm hcond
    have hcond' : r < 0 ∨ (r = 0 ∧ m < 0) := hcond
    rcases hcond' with h | ⟨_, h⟩ <;> omega
  · intro r m hr hm hcomp
    cases r with
    | zero =>
      exact (mkFirstRound_slots players _
        (generateBracket_slot_zero players mpp st0 m hm)).2.2.1 hcomp
    | succ r =>
      rw [generateBracket_slot_succ players mpp st0 r m hr hm] at hcomp
      exact absurd hcomp (by simp [emptyTMatch])
  · intro r m hr hm hpn
    cases r with
    | zero =>
      exact (mkFirstRound_slots players _
        (generateBracket_slot_zero players mpp st0 m hm)).1
    | succ r =>
      rw [generateBracket_slot_succ players mpp st0 r m hr hm]
      rfl
  · intro m hm
    exact (mkFirstRound_slots players _
      (generateBracket_slot_zero players mpp st0 m hm)).2.1

/-- C2: for every population of at least two players, `generateBracket`
produces a bracket with exactly `ceil(log2 N)` rounds; running the
tournament to the point where `getNextMatch` returns `null` leaves every
slot completed, the final round holding a single completed slot, and
`getWinner` returning exactly one champion; bye slots (one player, no
counterpart) never record a game, and the statistics of any agent that
never occupied a two-player slot are untouched. -/
theorem tournament_spec (players : List Nat) (mpp : Nat) (st0 : Nat → PStats)
    (strat : Nat → Nat × Nat) (hN : 2 ≤ players.length) :
    (generateBracket players mpp st0).bracket.length = Nat.clog 2 players.length
    ∧ (c2Final players mpp st0 strat).bracket.length = Nat.clog 2 players.length
    ∧ ((c2Final players mpp st0 strat).bracket.getD
        ((c2Final players mpp st0 strat).bracket.length - 1) []).length = 1
    ∧ getNextMatch (c2Final players mpp st0 strat) = (c2Final players mpp st0 strat, none)
    ∧ (∀ r m, r < (c2Final players mpp st0 strat).bracket.length →
        m < ((c2Final players mpp st0 strat).bracket.getD r []).length →
        (getSlot (c2Final players mpp st0 strat).bracket r m).completed = true)
    ∧ isComplete (c2Final players mpp st0 strat) = true
    ∧ (∃ champion, getWinner (c2Final players mpp st0 strat) = some champion)
    ∧ (∀ r m, r < (c2Final players mpp st0 strat).bracket.length →
        m < ((c2Final players mpp st0 strat).bracket.getD r []).length →
        (getSlot (c2Final players mpp st0 strat).bracket r m).player2 = none →
        (getSlot (c2Final players mpp st0 strat).bracket r m).scores = [])
    ∧ (∀ q, (c2Final players mpp st0 strat).stats q ≠ st0 q →
        hasTwoPlayerSlotWith (c2Final players mpp st0 strat).bracket q) := by
  have hInv0 := generateBracket_TInv players mpp st0 hN
  have hfuel : incompleteCount (generateBracket players mpp st0).bracket
      < ((generateBracket players mpp st0).bracket.map List.length).sum + 1 := by
    have := incompleteCount_le (generateBracket players mpp st0).bracket
    omega
  obtain ⟨fInv0, fLen0, fRow0, fMono0, fMPP0, fDone0, fStats0⟩ :=
    runTournament_spec
      (((generateBracket players mpp st0).bracket.map List.length).sum + 1) 0
      (generateBracket players mpp st0) strat hInv0 hfuel
  have fInv : TInv (c2Final players mpp st0 strat) := fInv0
  have fLen : (c2Final players mpp st0 strat).bracket.length
      = (generateBracket players mpp st0).bracket.length := fLen0
  have fDone : (generateBracket players mpp st0).bracket.length
      ≤ (c2Final players mpp st0 strat).currentRound := fDone0
  have fStats : ∀ q, (c2Final players mpp st0 strat).stats q ≠ st0 q →
      hasTwoPlayerSlotWith (c2Final players mpp st0 strat).bracket q := fStats0
  have hlen0 := generateBracket_length players mpp st0 hN
  have hlast1 : ((c2Final players mpp st0 strat).bracket.getD
      ((c2Final players mpp st0 strat).bracket.length - 1) []).length = 1 := fInv.1.2.2
  have hlenpos : 0 < (c2Final players mpp st0 strat).bracket.length := by
    rw [fLen, hlen0]
    exact Nat.clog_pos (by norm_num) (by omega)
  have hAll : ∀ r m, r < (c2Final players mpp st0 strat).bracket.length →
      m < ((c2Final players mpp st0 strat).bracket.getD r []).length →
      (getSlot (c2Final players mpp st0 strat).bracket r m).completed = true := by
    intro r m hr hm
    exact fInv.2.1 r m hr hm (Or.inl (by omega))
  have hne : (c2Final players mpp st0 strat).bracket.isEmpty = false := by
    rcases hbr : (c2Final players mpp st0 strat).bracket with _ | ⟨row, rest⟩
    · rw [hbr] at hlenpos
      simp at hlenpos
    · rfl
  have hcomp : isComplete (c2Final players mpp st0 strat) = true := by
    simp only [isComplete]
    rw [if_neg (by rw [hne]; exact Bool.false_ne_true)]
    have hhead : ((c2Final players mpp st0 strat).bracket.getD
          ((c2Final players mpp st0 strat).bracket.length - 1) []).head?
        = some (getSlot (c2Final players mpp st0 strat).bracket
            ((c2Final players mpp st0 strat).bracket.length - 1) 0) := by
      rcases hrow : (c2Final players mpp st0 strat).bracket.getD
          ((c2Final players mpp st0 strat).bracket.length - 1) [] with _ | ⟨mt, rest⟩
      · rw [hrow] at hlast1
        simp at hlast1
      · simp only [getSlot, hrow, List.head?, List.getD_cons_zero]
    rw [hhead]
    exact hAll ((c2Final players mpp st0 strat).bracket.length - 1) 0 (by omega) (by omega)
  have hwin : (getSlot (c2Final players mpp st0 strat).bracket
      ((c2Final players mpp st0 strat).bracket.length - 1) 0).winner.isSome = true :=
    fInv.2.2.1 ((c2Final players mpp st0 strat).bracket.length - 1) 0 (by omega) (by omega)
      (hAll ((c2Final players mpp st0 strat).bracket.length - 1) 0 (by omega) (by omega))
  obtain ⟨champ, hchamp⟩ := Option.isSome_iff_exists.mp hwin
  refine ⟨hlen0, fLen.trans hlen0, hlast1, ?_, hAll, hcomp, ?_, fInv.2.2.2.1, fStats⟩
  · exact getNextMatch_none_of_done (c2Final players mpp st0 strat) (by omega)
  · refine ⟨champ, ?_⟩
    simp only [getWinner]
    rw [if_pos hcomp]
    exact hchamp

theorem tournament_spec_witness :
    2 ≤ ([0, 1, 2] : List Nat).length
    ∧ ((generateBracket [0, 1, 2] 3 (fun _ => default)).bracket.length
          = Nat.clog 2 ([0, 1, 2] : List Nat).length
        ∧ (c2Final [0, 1, 2] 3 (fun _ => default) (fun _ => (5, 3))).bracket.length
          = Nat.clog 2 ([0, 1, 2] : List Nat).length
        ∧ ((c2Final [0, 1, 2] 3 (fun _ => default) (fun _ => (5, 3))).bracket.getD
            ((c2Final [0, 1, 2] 3 (fun _ => default) (fun _ => (5, 3))).bracket.length - 1)
            []).length = 1
        ∧ getNextMatch (c2Final [0, 1, 2] 3 (fun _ => default) (fun _ => (5, 3)))
          = (c2Final [0, 1, 2] 3 (fun _ => default) (fun _ => (5, 3)), none)
        ∧ (∀ r m,
            r < (c2Final [0, 1, 2] 3 (fun _ => default) (fun _ => (5, 3))).bracket.length →
            m < ((c2Final [0, 1, 2] 3 (fun _ => default)
                (fun _ => (5, 3))).bracket.getD r []).length →
            (getSlot (c2Final [0, 1, 2] 3 (fun _ => default)
                (fun _ => (5, 3))).bracket r m).completed = true)
        ∧ isComplete (c2Final [0, 1, 2] 3 (fun _ => default) (fun _ => (5, 3))) = true
        ∧ (∃ champion, getWinner (c2Final [0, 1, 2] 3 (fun _ => default) (fun _ => (5, 3)))
            = some champion)
        ∧ (∀ r m,
            r < (c2Final [0, 1, 2] 3 (fun _ => default) (fun _ => (5, 3))).bracket.length →
            m < ((c2Final [0, 1, 2] 3 (fun _ => default)
                (fun _ => (5, 3))).bracket.getD r []).length →
            (getSlot (c2Final [0, 1, 2] 3 (fun _ => default)
                (fun _ => (5, 3))).bracket r m).player2 = none →
            (getSlot (c2Final [0, 1, 2] 3 (fun _ => default)
                (fun _ => (5, 3))).bracket r m).scores = [])
        ∧ (∀ q, (c2Final [0, 1, 2] 3 (fun _ => default) (fun _ => (5, 3))).stats q
              ≠ (fun _ => (default : PStats)) q →
            hasTwoPlayerSlotWith
              (c2Final [0, 1, 2] 3 (fun _ => default) (fun _ => (5, 3))).bracket q)) :=
  ⟨by decide, tournament_spec [0, 1, 2] 3 (fun _ => default) (fun _ => (5, 3)) (by decide)⟩
